import Mathlib

/-!
# Registry of civil records (`app.js`, class `DataManager`)

A shallow embedding of the registry engine of `app.js` and theorems about it.

* A JavaScript string is the list of its UTF-16 code units (`JSString`), so that
  `length`, `trim`, `includes` and the regular expression of `validateInput`
  see exactly what the engine sees.
* What the environment supplies (`Date.now()`, `toLocaleString("id-ID")`, the answer to
  `confirm`, the locale tables behind `toLowerCase` and `Intl.NumberFormat`) is an explicit
  argument of the operation that reads it.
* `showNotification` and the sinks are modelled by the values the operation hands to them.
-/

namespace DataManager

/-! ## Strings -/

/-- A JavaScript string: its UTF-16 code units. -/
abbrev JSString := List Nat

/-- The UTF-16 code units of one Unicode scalar value. -/
def utf16 (c : Char) : List Nat :=
  if c.toNat < 65536 then [c.toNat]
  else [55296 + (c.toNat - 65536) / 1024, 56320 + (c.toNat - 65536) % 1024]

/-- The JavaScript string denoted by a source literal. -/
def js (s : String) : JSString :=
  s.toList.flatMap utf16

/-- The code units removed by `String.prototype.trim`: ECMAScript `WhiteSpace` and
`LineTerminator` (TAB, LF, VT, FF, CR, SP, NBSP, U+1680, U+2000..U+200A, U+2028, U+2029,
U+202F, U+205F, U+3000, U+FEFF). -/
def isWhiteSpace (c : Nat) : Bool :=
  c == 9 || c == 10 || c == 11 || c == 12 || c == 13 || c == 32 || c == 160 || c == 5760 ||
  (8192 ≤ c && c ≤ 8202) || c == 8232 || c == 8233 || c == 8239 || c == 8287 ||
  c == 12288 || c == 65279

/-- `String.prototype.trimStart`. -/
def trimStart (s : JSString) : JSString :=
  s.dropWhile isWhiteSpace

/-- `String.prototype.trimEnd`. -/
def trimEnd (s : JSString) : JSString :=
  (s.reverse.dropWhile isWhiteSpace).reverse

/-- `String.prototype.trim`. -/
def trim (s : JSString) : JSString :=
  trimEnd (trimStart s)

/-- `ToBoolean` of a string: only the empty string is falsy. -/
def truthy (s : JSString) : Bool :=
  !s.isEmpty

/-- `\d` of a regular expression without the `u`/`v` flag sets: the ASCII digits. -/
def isDigit (c : Nat) : Bool :=
  48 ≤ c && c ≤ 57

/-- Whether the whole of `s` is exactly `n` code units matching `\d`:
the regular expression `^\d{n}$`. -/
def matchDigits : Nat → JSString → Bool
  | 0, [] => true
  | 0, _ :: _ => false
  | _ + 1, [] => false
  | n + 1, c :: s => isDigit c && matchDigits n s

/-- `String.prototype.includes` with position 0: `t` occurs in `s` as a run of
consecutive code units. -/
def includes (s t : JSString) : Bool :=
  s.tails.any (fun u => t.isPrefixOf u)

/-! ## Numbers -/

/-- The numbers this program stores: `parseInt` yields `NaN`, an infinity (when the digits
overflow the double range), negative zero (for a minus sign and digits denoting zero) or an
integer; `Date.now()` an integer. `int 0` is positive zero. -/
inductive JSNumber where
  | nan
  | infinity (negative : Bool)
  | negZero
  | int (z : Int)
  deriving DecidableEq, Repr

/-! ## Records and notifications -/

/-- One entry of the registry, as `addData` builds it. -/
structure Record where
  id : Int
  nama : JSString
  nik : JSString
  alamat : JSString
  nominal : JSNumber
  tanggalInput : JSString
  deriving DecidableEq, Repr

/-- The arguments of one call of `showNotification`. -/
structure Notification where
  message : String
  type : String
  deriving DecidableEq, Repr

def msgNameRequired : Notification := ⟨"❌ Nama tidak boleh kosong!", "danger"⟩
def msgNameTooShort : Notification := ⟨"❌ Nama minimal 3 karakter!", "danger"⟩
def msgNikFormat : Notification := ⟨"❌ NIK harus 16 digit angka!", "danger"⟩
def msgNikDuplicate : Notification := ⟨"⚠️ NIK sudah terdaftar!", "warning"⟩

/-- `validateInput(nama, nik)` on the registry `data`: the boolean it returns and the
notification it shows, if any. -/
def validateInput (data : List Record) (nama nik : JSString) : Bool × Option Notification :=
  if !truthy (trim nama) then (false, some msgNameRequired)
  else if (trim nama).length < 3 then (false, some msgNameTooShort)
  else if !matchDigits 16 nik then (false, some msgNikFormat)
  else
    let nikExists := data.any (fun item => item.nik == nik)
    if nikExists then (false, some msgNikDuplicate)
    else (true, none)

/-! ## Numbers to and from text -/

/-- The decimal digits of `n`, most significant first, as code units; `fuel` bounds the
number of digits. -/
def natDigitsFuel : Nat → Nat → JSString
  | 0, _ => []
  | fuel + 1, n => if n < 10 then [48 + n] else natDigitsFuel fuel (n / 10) ++ [48 + n % 10]

/-- `Number::toString` of a non-negative integer (below `10^21`, where the engine prints
every digit). -/
def natDigits (n : Nat) : JSString :=
  natDigitsFuel (n + 1) n

/-- `Number::toString` of an integer. -/
def intToString (z : Int) : JSString :=
  if z < 0 then 45 :: natDigits z.natAbs else natDigits z.natAbs

/-- The value of the code unit `c` as a digit of `parseInt` in the given radix. -/
def digitValue (radix c : Nat) : Option Nat :=
  let v : Option Nat :=
    if 48 ≤ c ∧ c ≤ 57 then some (c - 48)
    else if 97 ≤ c ∧ c ≤ 122 then some (c - 87)
    else if 65 ≤ c ∧ c ≤ 90 then some (c - 55)
    else none
  v.filter (fun d => d < radix)

/-- The digit values of the longest prefix of `s` made of digits of the radix. -/
def radixDigits (radix : Nat) : JSString → List Nat
  | [] => []
  | c :: s =>
    match digitValue radix c with
    | some d => d :: radixDigits radix s
    | none => []

/-- The least integer that `Number` conversion rounds to an infinity, `2^1024 - 2^970`: half
an ulp above the largest finite double. -/
def overflowThreshold : Nat := (2 ^ 194) ^ 5 * (2 ^ 54 - 1)

/-- The number of binary digits of `m`; `fuel` bounds it. -/
def bitLengthFuel : Nat → Nat → Nat
  | 0, _ => 0
  | fuel + 1, m => if m = 0 then 0 else bitLengthFuel fuel (m / 2) + 1

/-- The number of binary digits of `m`. -/
def bitLength (m : Nat) : Nat :=
  bitLengthFuel m m

/-- The double nearest to the integer `m`, ties going to the even significand: every
integer up to `2^53` is a double; a larger one keeps its 53 leading binary digits, rounded
on the digits dropped. -/
def roundToDouble (m : Nat) : Nat :=
  if m ≤ 2 ^ 53 then m
  else
    let e := bitLength m - 53
    let q := m / 2 ^ e
    let r := m % 2 ^ e
    let half := 2 ^ (e - 1)
    (if half < r ∨ (r = half ∧ q % 2 = 1) then q + 1 else q) * 2 ^ e

/-- `parseInt(string)` without a radix argument: leading white space is skipped, a sign and
a `0x`/`0X` prefix are read, then the longest run of digits; no digit gives `NaN`, digits
denoting zero give zero with the sign read, and any other integer is rounded to the nearest
double (an engine may round decimal digits after the twentieth differently). -/
def parseInt (input : JSString) : JSNumber :=
  let s := trimStart input
  let signed : Bool × JSString :=
    match s with
    | c :: r => if c = 45 then (true, r) else if c = 43 then (false, r) else (false, s)
    | [] => (false, s)
  let based : Nat × JSString :=
    match signed.2 with
    | c :: x :: r => if c = 48 ∧ (x = 120 ∨ x = 88) then (16, r) else (10, signed.2)
    | _ => (10, signed.2)
  let digits := radixDigits based.1 based.2
  if digits.isEmpty then JSNumber.nan
  else
    let mathInt := digits.foldl (fun a d => a * based.1 + d) 0
    if mathInt = 0 then (if signed.1 then JSNumber.negZero else JSNumber.int 0)
    else if overflowThreshold ≤ mathInt then JSNumber.infinity signed.1
    else
      JSNumber.int
        (if signed.1 then -(roundToDouble mathInt : Int) else (roundToDouble mathInt : Int))

/-! ## `JSON.stringify` of the registry -/

def isHighSurrogate (c : Nat) : Bool := 55296 ≤ c && c ≤ 56319

def isLowSurrogate (c : Nat) : Bool := 56320 ≤ c && c ≤ 57343

/-- One lower-case hexadecimal digit. -/
def hexDigit (d : Nat) : Nat :=
  if d < 10 then 48 + d else 87 + d

/-- The escape `\uXXXX` of a code unit (`UnicodeEscape`). -/
def unicodeEscape (c : Nat) : JSString :=
  [92, 117, hexDigit (c / 4096 % 16), hexDigit (c / 256 % 16), hexDigit (c / 16 % 16),
    hexDigit (c % 16)]

/-- `QuoteJSONString` on one code unit that is not a surrogate: the short escapes of
backspace, tab, line feed, form feed, carriage return, quote and backslash, `\uXXXX` for the
other control characters, the unit itself otherwise. -/
def quoteUnit (c : Nat) : JSString :=
  if c = 8 then [92, 98]
  else if c = 9 then [92, 116]
  else if c = 10 then [92, 110]
  else if c = 12 then [92, 102]
  else if c = 13 then [92, 114]
  else if c = 34 then [92, 34]
  else if c = 92 then [92, 92]
  else if c < 32 then unicodeEscape c
  else [c]

/-- `QuoteJSONString` without the enclosing quotes: a surrogate pair is copied, a lone
surrogate is written as `\uXXXX`. -/
def quoteUnits : JSString → JSString
  | [] => []
  | [c] =>
    if isHighSurrogate c || isLowSurrogate c then unicodeEscape c else quoteUnit c
  | c :: d :: rest =>
    if isHighSurrogate c && isLowSurrogate d then c :: d :: quoteUnits rest
    else if isHighSurrogate c || isLowSurrogate c then unicodeEscape c ++ quoteUnits (d :: rest)
    else quoteUnit c ++ quoteUnits (d :: rest)

/-- `QuoteJSONString`. -/
def quoteJSONString (s : JSString) : JSString :=
  34 :: (quoteUnits s ++ [34])

/-- `JSON.stringify` of a number: `NaN` and the infinities are written `null`, negative
zero is written `0`. -/
def stringifyNumber : JSNumber → JSString
  | JSNumber.int z => intToString z
  | JSNumber.negZero => [48]
  | _ => [110, 117, 108, 108]

/-- `JSON.stringify` of one record: its six own properties in creation order. -/
def stringifyRecord (r : Record) : JSString :=
  js "\x7b\"id\":" ++ intToString r.id ++
  js ",\"nama\":" ++ quoteJSONString r.nama ++
  js ",\"nik\":" ++ quoteJSONString r.nik ++
  js ",\"alamat\":" ++ quoteJSONString r.alamat ++
  js ",\"nominal\":" ++ stringifyNumber r.nominal ++
  js ",\"tanggalInput\":" ++ quoteJSONString r.tanggalInput ++ js "\x7d"

/-- The elements of an array, separated by commas. -/
def stringifyElements : List Record → JSString
  | [] => []
  | [r] => stringifyRecord r
  | r :: rs => stringifyRecord r ++ 44 :: stringifyElements rs

/-- `JSON.stringify(this.data)`. -/
def stringify (data : List Record) : JSString :=
  91 :: (stringifyElements data ++ [93])

/-! ## The registry -/

/-- The state of the engine: the in-memory sequence `this.data` and the item stored in
`localStorage` under the key `dataRegistry` (`none` when there is no such item). -/
structure AppState where
  data : List Record
  storage : Option JSString
  deriving DecidableEq, Repr

/-- The registry of a first run: no records, nothing stored. -/
def AppState.empty : AppState := ⟨[], none⟩

/-- `saveToLocalStorage()`. -/
def saveToLocalStorage (s : AppState) : AppState :=
  { s with storage := some (stringify s.data) }

/-- `addData(nama, nik, alamat, nominal)`, where `now` is the reading of `Date.now()` and
`localeNow` the text of `new Date().toLocaleString("id-ID")`: the new state and the entry
returned. -/
def addData (s : AppState) (nama nik alamat nominal : JSString) (now : Int)
    (localeNow : JSString) : AppState × Record :=
  let newEntry : Record :=
    { id := now
      nama := trim nama
      nik := trim nik
      alamat := trim alamat
      nominal := parseInt nominal
      tanggalInput := localeNow }
  (saveToLocalStorage { s with data := newEntry :: s.data }, newEntry)

/-- `deleteData(id)`. -/
def deleteData (s : AppState) (id : Int) : AppState :=
  saveToLocalStorage { s with data := s.data.filter (fun item => item.id != id) }

def msgDeletedAll : Notification := ⟨"Semua data berhasil dihapus!", "warning"⟩
def msgDeleted : Notification := ⟨"Data berhasil dihapus!", "success"⟩
def msgAdded : Notification := ⟨"✓ Data berhasil ditambahkan!", "success"⟩

/-- `deleteAll()`, where `confirmed` is the answer to the `confirm` dialog. -/
def deleteAll (s : AppState) (confirmed : Bool) : AppState × Option Notification :=
  if confirmed then (saveToLocalStorage { s with data := [] }, some msgDeletedAll)
  else (s, none)

/-- `deleteDataHandler(id)`, where `confirmed` is the answer to the `confirm` dialog. -/
def deleteDataHandler (s : AppState) (id : Int) (confirmed : Bool) :
    AppState × Option Notification :=
  if confirmed then (deleteData s id, some msgDeleted)
  else (s, none)

/-- `searchData(query)`; `toLowerCase` stands for `String.prototype.toLowerCase`. -/
def searchData (toLowerCase : JSString → JSString) (data : List Record) (query : JSString) :
    List Record :=
  if !truthy (trim query) then data
  else
    let lowerQuery := toLowerCase query
    data.filter (fun item =>
      includes (toLowerCase item.nama) lowerQuery ||
      includes item.nik query ||
      includes (toLowerCase item.alamat) lowerQuery)

/-- `String.prototype.toLowerCase` on Basic Latin, where it only moves `A`..`Z`; on text
whose code units are all below 128 the builtin is this function. -/
def toLowerCaseBasicLatin (s : JSString) : JSString :=
  s.map (fun c => if 65 ≤ c ∧ c ≤ 90 then c + 32 else c)

/-- The fields of the form read by the submit handler, with the clock readings taken if
the entry is created. -/
structure Submission where
  nama : JSString
  nik : JSString
  alamat : JSString
  nominal : JSString
  now : Int
  localeNow : JSString
  deriving DecidableEq, Repr

/-- The `submit` listener of the form: `addData` runs only when `validateInput` accepts. -/
def submit (s : AppState) (f : Submission) : AppState × Option Notification :=
  let checked := validateInput s.data f.nama f.nik
  if checked.1 then
    ((addData s f.nama f.nik f.alamat f.nominal f.now f.localeNow).1, some msgAdded)
  else (s, checked.2)

/-- What the user can do to the registry. -/
inductive Event where
  | submit (f : Submission)
  | deleteDataHandler (id : Int) (confirmed : Bool)
  | deleteAll (confirmed : Bool)
  deriving DecidableEq, Repr

/-- The state after one event. -/
def step (s : AppState) : Event → AppState
  | Event.submit f => (submit s f).1
  | Event.deleteDataHandler id confirmed => (deleteDataHandler s id confirmed).1
  | Event.deleteAll confirmed => (deleteAll s confirmed).1

/-- The state after a sequence of events, the first event first. -/
def run (s : AppState) (events : List Event) : AppState :=
  events.foldl step s

/-! ## `JSON.parse` and loading -/

/-- The values `JSON.parse` can return. A number that is an integer is `num (int z)`; a
number with a fractional part is `decimal m e`, standing for `m * 10 ^ e` with `e < 0` and
`m` not a multiple of ten. The values of literals are kept exact: the rounding to the nearest
double is not modelled. -/
inductive JSValue where
  | null
  | bool (b : Bool)
  | num (n : JSNumber)
  | decimal (mantissa : Int) (exponent : Int)
  | str (s : JSString)
  | arr (elements : List JSValue)
  | obj (properties : List (JSString × JSValue))

/-- The exception a builtin throws. -/
inductive JSError where
  | syntaxError
  deriving DecidableEq, Repr

/-- JSON white space: tab, line feed, carriage return, space. -/
def isJSONWhiteSpace (c : Nat) : Bool :=
  c == 9 || c == 10 || c == 13 || c == 32

def skipWhiteSpace (s : JSString) : JSString :=
  s.dropWhile isJSONWhiteSpace

/-- The value of a hexadecimal digit of either case. -/
def hexValue (c : Nat) : Option Nat :=
  if 48 ≤ c ∧ c ≤ 57 then some (c - 48)
  else if 97 ≤ c ∧ c ≤ 102 then some (c - 87)
  else if 65 ≤ c ∧ c ≤ 70 then some (c - 55)
  else none

/-- The code unit denoted by a one-letter escape: `\"`, `\\`, `\/`, `\b`, `\f`, `\n`, `\r`,
`\t`. -/
def unescape (c : Nat) : Option Nat :=
  if c = 34 then some 34
  else if c = 92 then some 92
  else if c = 47 then some 47
  else if c = 98 then some 8
  else if c = 102 then some 12
  else if c = 110 then some 10
  else if c = 114 then some 13
  else if c = 116 then some 9
  else none

/-- A JSON string after its opening quote: the code units it denotes and the text after
the closing quote. A control character below U+0020 may not occur unescaped. -/
def parseStringBody : JSString → Option (JSString × JSString)
  | [] => none
  | c :: rest =>
    if c = 34 then some ([], rest)
    else if c = 92 then
      match rest with
      | [] => none
      | e :: rest1 =>
        if e = 117 then
          match rest1 with
          | h1 :: h2 :: h3 :: h4 :: rest2 =>
            match hexValue h1, hexValue h2, hexValue h3, hexValue h4 with
            | some a, some b, some x, some y =>
              (parseStringBody rest2).map
                (fun p => ((((a * 16 + b) * 16 + x) * 16 + y) :: p.1, p.2))
            | _, _, _, _ => none
          | _ => none
        else
          match unescape e with
          | some u => (parseStringBody rest1).map (fun p => (u :: p.1, p.2))
          | none => none
    else if c < 32 then none
    else (parseStringBody rest).map (fun p => (c :: p.1, p.2))

/-- The longest prefix of decimal digits, and what follows it. -/
def takeDigits : JSString → JSString × JSString
  | [] => ([], [])
  | c :: s => if isDigit c then (c :: (takeDigits s).1, (takeDigits s).2) else ([], c :: s)

/-- The number written by a run of decimal digits. -/
def digitsValue (ds : JSString) : Nat :=
  ds.foldl (fun a c => 10 * a + (c - 48)) 0

/-- JSON `int` without its sign: `0`, or a digit other than `0` followed by digits. -/
def parseWhole : JSString → Option (Nat × JSString)
  | [] => none
  | c :: s =>
    if c = 48 then some (0, s)
    else if isDigit c then some (digitsValue (c :: (takeDigits s).1), (takeDigits s).2)
    else none

/-- JSON `frac`: nothing, or a point followed by at least one digit; the digits read. -/
def parseFraction : JSString → Option (JSString × JSString)
  | [] => some ([], [])
  | c :: s =>
    if c = 46 then
      if (takeDigits s).1.isEmpty then none else some (takeDigits s)
    else some ([], c :: s)

/-- The digits of an exponent, at least one. -/
def parseExponentDigits (negative : Bool) (s : JSString) : Option (Int × JSString) :=
  if (takeDigits s).1.isEmpty then none
  else
    some (if negative then -(digitsValue (takeDigits s).1 : Int)
      else (digitsValue (takeDigits s).1 : Int), (takeDigits s).2)

/-- JSON `exp`: nothing (exponent 0), or `e`/`E`, an optional sign and digits. -/
def parseExponent : JSString → Option (Int × JSString)
  | [] => some (0, [])
  | c :: s =>
    if c = 101 ∨ c = 69 then
      match s with
      | [] => none
      | x :: r =>
        if x = 45 then parseExponentDigits true r
        else if x = 43 then parseExponentDigits false r
        else parseExponentDigits false s
    else some (0, c :: s)

/-- Shifts trailing zeros of the mantissa into a negative exponent. -/
def stripZeros : Nat → Nat → Int → Nat × Int
  | 0, m, e => (m, e)
  | fuel + 1, m, e => if e < 0 ∧ m % 10 = 0 then stripZeros fuel (m / 10) (e + 1) else (m, e)

/-- The value of a number literal with integer part `whole`, fraction digits `frac` and
exponent `exp`. -/
def numberValue (negative : Bool) (whole : Nat) (frac : JSString) (exp : Int) : JSValue :=
  let m := whole * 10 ^ frac.length + digitsValue frac
  let e := exp - frac.length
  let signed : Nat → Int := fun n => if negative then -(n : Int) else n
  if m = 0 then JSValue.num (if negative then JSNumber.negZero else JSNumber.int 0)
  else if 0 ≤ e then JSValue.num (JSNumber.int (signed (m * 10 ^ e.toNat)))
  else
    let r := stripZeros e.natAbs m e
    if r.2 = 0 then JSValue.num (JSNumber.int (signed r.1)) else JSValue.decimal (signed r.1) r.2

/-- A JSON number: optional minus, `int`, `frac`, `exp`. -/
def parseNumber (input : JSString) : Option (JSValue × JSString) :=
  let signed : Bool × JSString :=
    match input with
    | c :: r => if c = 45 then (true, r) else (false, input)
    | [] => (false, input)
  match parseWhole signed.2 with
  | none => none
  | some (whole, s1) =>
    match parseFraction s1 with
    | none => none
    | some (frac, s2) =>
      match parseExponent s2 with
      | none => none
      | some (exp, s3) => some (numberValue signed.1 whole frac exp, s3)

/-- The text after the literal `lit`, when `s` starts with it. -/
def dropLiteral (lit s : JSString) : Option JSString :=
  if lit.isPrefixOf s then some (s.drop lit.length) else none

/-- `CreateDataProperty` on the properties read so far: a key read again keeps its place
and takes the new value. -/
def setProperty (ps : List (JSString × JSValue)) (k : JSString) (v : JSValue) :
    List (JSString × JSValue) :=
  if ps.any (fun p => p.1 == k) then ps.map (fun p => if p.1 == k then (k, v) else p)
  else ps ++ [(k, v)]

/-- The properties of the object built from the members of an object literal, in order. -/
def defineProperties (members : List (JSString × JSValue)) : List (JSString × JSValue) :=
  members.foldl (fun ps m => setProperty ps m.1 m.2) []

mutual
/-- One JSON value, with leading white space; `fuel` bounds the nesting of calls. -/
def parseValue : Nat → JSString → Option (JSValue × JSString)
  | 0, _ => none
  | fuel + 1, input =>
    match skipWhiteSpace input with
    | [] => none
    | c :: rest =>
      if c = 34 then (parseStringBody rest).map (fun p => (JSValue.str p.1, p.2))
      else if c = 91 then
        match skipWhiteSpace rest with
        | [] => none
        | d :: rest1 =>
          if d = 93 then some (JSValue.arr [], rest1)
          else (parseElements fuel rest).map (fun p => (JSValue.arr p.1, p.2))
      else if c = 123 then
        match skipWhiteSpace rest with
        | [] => none
        | d :: rest1 =>
          if d = 125 then some (JSValue.obj [], rest1)
          else (parseMembers fuel rest).map (fun p => (JSValue.obj (defineProperties p.1), p.2))
      else if c = 116 then
        (dropLiteral [114, 117, 101] rest).map (fun r => (JSValue.bool true, r))
      else if c = 102 then
        (dropLiteral [97, 108, 115, 101] rest).map (fun r => (JSValue.bool false, r))
      else if c = 110 then
        (dropLiteral [117, 108, 108] rest).map (fun r => (JSValue.null, r))
      else parseNumber (c :: rest)
/-- The elements of an array up to and including its closing bracket. -/
def parseElements : Nat → JSString → Option (List JSValue × JSString)
  | 0, _ => none
  | fuel + 1, input =>
    match parseValue fuel input with
    | none => none
    | some (v, rest) =>
      match skipWhiteSpace rest with
      | [] => none
      | c :: rest1 =>
        if c = 44 then (parseElements fuel rest1).map (fun p => (v :: p.1, p.2))
        else if c = 93 then some ([v], rest1)
        else none
/-- The members of an object up to and including its closing brace. -/
def parseMembers : Nat → JSString → Option (List (JSString × JSValue) × JSString)
  | 0, _ => none
  | fuel + 1, input =>
    match skipWhiteSpace input with
    | [] => none
    | q :: rest =>
      if q = 34 then
        match parseStringBody rest with
        | none => none
        | some (k, rest1) =>
          match skipWhiteSpace rest1 with
          | [] => none
          | colon :: rest2 =>
            if colon = 58 then
              match parseValue fuel rest2 with
              | none => none
              | some (v, rest3) =>
                match skipWhiteSpace rest3 with
                | [] => none
                | c :: rest4 =>
                  if c = 44 then (parseMembers fuel rest4).map (fun p => ((k, v) :: p.1, p.2))
                  else if c = 125 then some ([(k, v)], rest4)
                  else none
            else none
      else none
end

/-- `JSON.parse(text)`: the value of the one JSON value that `text` is, a `SyntaxError`
when it is not one. Every call of the parser consumes a code unit of its own or hands over
to a call that does, so twice the length of the text is fuel enough. -/
def JSON.parse (text : JSString) : Except JSError JSValue :=
  match parseValue (2 * text.length + 2) text with
  | none => Except.error JSError.syntaxError
  | some (v, rest) =>
    if (skipWhiteSpace rest).isEmpty then Except.ok v else Except.error JSError.syntaxError

/-- `loadFromLocalStorage()`, where `stored` is what `localStorage.getItem("dataRegistry")`
returns (`none` for `null`): the value assigned to `this.data`, or the exception thrown. -/
def loadFromLocalStorage (stored : Option JSString) : Except JSError JSValue :=
  match stored with
  | none => Except.ok (JSValue.arr [])
  | some text => if truthy text then JSON.parse text else Except.ok (JSValue.arr [])

/-- The object that a record is: its six properties in creation order. -/
def Record.toValue (r : Record) : JSValue :=
  JSValue.obj
    [(js "id", JSValue.num (JSNumber.int r.id)),
     (js "nama", JSValue.str r.nama),
     (js "nik", JSValue.str r.nik),
     (js "alamat", JSValue.str r.alamat),
     (js "nominal", JSValue.num r.nominal),
     (js "tanggalInput", JSValue.str r.tanggalInput)]

/-- The array that the registry is. -/
def dataValue (data : List Record) : JSValue :=
  JSValue.arr (data.map Record.toValue)

/-- What `JSON.parse` reads back for a number written by `JSON.stringify`: `NaN` and the
infinities were written `null`, negative zero was written `0`, which reads as positive
zero. -/
def storedNumber : JSNumber → JSValue
  | JSNumber.int z => JSValue.num (JSNumber.int z)
  | JSNumber.negZero => JSValue.num (JSNumber.int 0)
  | _ => JSValue.null

/-- The object read back for a record written by `JSON.stringify`. -/
def Record.storedValue (r : Record) : JSValue :=
  JSValue.obj
    [(js "id", JSValue.num (JSNumber.int r.id)),
     (js "nama", JSValue.str r.nama),
     (js "nik", JSValue.str r.nik),
     (js "alamat", JSValue.str r.alamat),
     (js "nominal", storedNumber r.nominal),
     (js "tanggalInput", JSValue.str r.tanggalInput)]

/-- The array read back for a registry written by `JSON.stringify`. -/
def storedValue (data : List Record) : JSValue :=
  JSValue.arr (data.map Record.storedValue)

/-! ## Formatting -/

/-- `escapeHtml(text)`: each of `&`, `<`, `>`, `"` and the apostrophe is replaced by the entry
of `map`, every other code unit is kept. -/
def escapeHtml (text : JSString) : JSString :=
  text.flatMap (fun m =>
    if m = 38 then js "&amp;"
    else if m = 60 then js "&lt;"
    else if m = 62 then js "&gt;"
    else if m = 34 then js "&quot;"
    else if m = 39 then js "&#039;"
    else [m])

/-- `formatCurrency(amount)`; `numberFormat` stands for the `format` method of
`new Intl.NumberFormat("id-ID", ...)` with style `currency`, currency `IDR` and no fraction
digits. -/
def formatCurrency (numberFormat : JSNumber → JSString) (amount : JSNumber) : JSString :=
  numberFormat amount

/-- Full stops between groups of three digits, on digits given least significant first. -/
def groupThousandsRev : JSString → JSString
  | a :: b :: c :: d :: rest => a :: b :: c :: 46 :: groupThousandsRev (d :: rest)
  | s => s

/-- What the `id-ID` rupiah formatter prints with the locale data of current engines: `Rp`,
a no-break space and the digits grouped in threes by full stops, a minus sign in front for a
negative amount. -/
def rupiah : JSNumber → JSString
  | JSNumber.nan => js "Rp\u00a0NaN"
  | JSNumber.infinity negative => (if negative then js "-Rp\u00a0∞" else js "Rp\u00a0∞")
  | JSNumber.negZero => js "-Rp\u00a00"
  | JSNumber.int z =>
    (if z < 0 then js "-Rp\u00a0" else js "Rp\u00a0") ++
      (groupThousandsRev (natDigits z.natAbs).reverse).reverse

/-- What the getters of one `new Date()` return: `getFullYear()`, `getMonth()` (0 to 11),
`getDate()`, `getHours()`, `getMinutes()`. -/
structure LocalClock where
  fullYear : Int
  month : Nat
  date : Nat
  hours : Nat
  minutes : Nat
  deriving DecidableEq, Repr

/-- `String.prototype.padStart(2, "0")`. -/
def padStart2 (s : JSString) : JSString :=
  if 2 ≤ s.length then s else List.replicate (2 - s.length) 48 ++ s

/-- `getTimestamp()`, where `now` is what the getters of `new Date()` return. -/
def getTimestamp (now : LocalClock) : JSString :=
  let year := intToString now.fullYear
  let month := padStart2 (natDigits (now.month + 1))
  let day := padStart2 (natDigits now.date)
  let hours := padStart2 (natDigits now.hours)
  let minutes := padStart2 (natDigits now.minutes)
  year ++ month ++ day ++ js "_" ++ hours ++ minutes

/-! ## Reports -/

/-- `Array.prototype.map` with a callback that reads the element and its index. -/
def mapWithIndexFrom {α β : Type} (f : α → Nat → β) : Nat → List α → List β
  | _, [] => []
  | index, item :: rest => f item index :: mapWithIndexFrom f (index + 1) rest

def mapWithIndex {α β : Type} (f : α → Nat → β) (xs : List α) : List β :=
  mapWithIndexFrom f 0 xs

/-- One row object of `dataWithNo` in `exportToExcel`, with the keys `No`, `Nama`, `NIK`,
`Alamat`, `Nominal (Rp)` and `Tanggal Input`. -/
structure ExcelRow where
  No : Nat
  Nama : JSString
  NIK : JSString
  Alamat : JSString
  Nominal : JSNumber
  TanggalInput : JSString
  deriving DecidableEq, Repr

/-- The array `dataWithNo` of `exportToExcel`. -/
def dataWithNo (data : List Record) : List ExcelRow :=
  mapWithIndex (fun item index =>
    { No := index + 1
      Nama := item.nama
      NIK := item.nik
      Alamat := item.alamat
      Nominal := item.nominal
      TanggalInput := item.tanggalInput }) data

/-- The six texts interpolated into one table row of markup, in column order. -/
structure RowCells where
  no : JSString
  nama : JSString
  nik : JSString
  alamat : JSString
  nominal : JSString
  tanggalInput : JSString
  deriving DecidableEq, Repr

/-- The interpolations of the row template of `generatePDFHTML`. -/
def pdfRowCells (numberFormat : JSNumber → JSString) (item : Record) (index : Nat) : RowCells :=
  { no := natDigits (index + 1)
    nama := escapeHtml item.nama
    nik := item.nik
    alamat := escapeHtml item.alamat
    nominal := formatCurrency numberFormat item.nominal
    tanggalInput := item.tanggalInput }

/-- The interpolations of the row template of `generateWordTable`. -/
def wordRowCells (numberFormat : JSNumber → JSString) (item : Record) (index : Nat) :
    RowCells :=
  { no := natDigits (index + 1)
    nama := escapeHtml item.nama
    nik := item.nik
    alamat := escapeHtml item.alamat
    nominal := formatCurrency numberFormat item.nominal
    tanggalInput := item.tanggalInput }

/-- The row template of `generatePDFHTML`. -/
def pdfRowMarkup (c : RowCells) : JSString :=
  js ("\n" ++
    "                <tr>\n" ++
    "                    <td style=\"border: 1px solid #ddd; padding: 8px; text-align: center;\"><strong>") ++
  c.no ++
  js ("</strong></td>\n" ++
    "                    <td style=\"border: 1px solid #ddd; padding: 8px;\">") ++
  c.nama ++
  js ("</td>\n" ++
    "                    <td style=\"border: 1px solid #ddd; padding: 8px; text-align: center;\"><strong>") ++
  c.nik ++
  js ("</strong></td>\n" ++
    "                    <td style=\"border: 1px solid #ddd; padding: 8px;\">") ++
  c.alamat ++
  js ("</td>\n" ++
    "                    <td style=\"border: 1px solid #ddd; padding: 8px; text-align: right;\">") ++
  c.nominal ++
  js ("</td>\n" ++
    "                    <td style=\"border: 1px solid #ddd; padding: 8px;\">") ++
  c.tanggalInput ++
  js ("</td>\n" ++
    "                </tr>\n" ++
    "            ")

/-- The row template of `generateWordTable`. -/
def wordRowMarkup (c : RowCells) : JSString :=
  js ("\n" ++
    "                <tr>\n" ++
    "                    <td style=\"border: 1px solid #999; padding: 10px; text-align: center;\"><strong>") ++
  c.no ++
  js ("</strong></td>\n" ++
    "                    <td style=\"border: 1px solid #999; padding: 10px;\">") ++
  c.nama ++
  js ("</td>\n" ++
    "                    <td style=\"border: 1px solid #999; padding: 10px; text-align: center;\"><strong>") ++
  c.nik ++
  js ("</strong></td>\n" ++
    "                    <td style=\"border: 1px solid #999; padding: 10px;\">") ++
  c.alamat ++
  js ("</td>\n" ++
    "                    <td style=\"border: 1px solid #999; padding: 10px; text-align: right;\">") ++
  c.nominal ++
  js ("</td>\n" ++
    "                    <td style=\"border: 1px solid #999; padding: 10px;\">") ++
  c.tanggalInput ++
  js ("</td>\n" ++
    "                </tr>\n" ++
    "            ")

/-- The body rows that `generatePDFHTML` appends, one per record. -/
def pdfRows (numberFormat : JSNumber → JSString) (data : List Record) : List RowCells :=
  mapWithIndex (pdfRowCells numberFormat) data

/-- The body rows that `generateWordTable` appends, one per record. -/
def wordRows (numberFormat : JSNumber → JSString) (data : List Record) : List RowCells :=
  mapWithIndex (wordRowCells numberFormat) data

/-- The template literals of `generatePDFHTML` around their interpolations: the heading,
which states when the report was printed (`printedAt`) and the total (`total`) after the
label `Total Data: `, the head of the table, the body rows (`rows`) and the closing tags. -/
def pdfTemplate (printedAt total rows : JSString) : JSString :=
  js ("\n" ++
    "            <div style=\"font-family: Arial, sans-serif; padding: 20px;\">\n" ++
    "                <h1 style=\"text-align: center; color: #333; margin-bottom: 5px;\">📋 Laporan Data Penduduk</h1>\n" ++
    "                <p style=\"text-align: center; color: #666; margin-bottom: 20px;\">\n" ++
    "                    Dicetak pada: ") ++
  printedAt ++
  js ("<br>\n" ++
    "                    Total Data: ") ++
  total ++
  js ("\n" ++
    "                </p>\n" ++
    "                <table style=\"width: 100%; border-collapse: collapse; font-size: 12px;\">\n" ++
    "                    <thead>\n" ++
    "                        <tr style=\"background-color: #667eea; color: white;\">\n" ++
    "                            <th style=\"border: 1px solid #ddd; padding: 8px; text-align: left;\">No</th>\n" ++
    "                            <th style=\"border: 1px solid #ddd; padding: 8px; text-align: left;\">Nama</th>\n" ++
    "                            <th style=\"border: 1px solid #ddd; padding: 8px; text-align: left;\">NIK</th>\n" ++
    "                            <th style=\"border: 1px solid #ddd; padding: 8px; text-align: left;\">Alamat</th>\n" ++
    "                            <th style=\"border: 1px solid #ddd; padding: 8px; text-align: left;\">Nominal (Rp)</th>\n" ++
    "                            <th style=\"border: 1px solid #ddd; padding: 8px; text-align: left;\">Tanggal Input</th>\n" ++
    "                        </tr>\n" ++
    "                    </thead>\n" ++
    "                    <tbody>\n" ++
    "        ") ++
  rows ++
  js ("\n" ++
    "                    </tbody>\n" ++
    "                </table>\n" ++
    "            </div>\n" ++
    "        ")

/-- `generatePDFHTML()`, where `localeNow` is the text of
`new Date().toLocaleString("id-ID")`: the total interpolated is `this.data.length`, and one
row is appended for each record. -/
def generatePDFHTML (numberFormat : JSNumber → JSString) (localeNow : JSString)
    (data : List Record) : JSString :=
  pdfTemplate localeNow (natDigits data.length)
    ((pdfRows numberFormat data).map pdfRowMarkup).flatten

/-- `generateWordTable()`. -/
def generateWordTable (numberFormat : JSNumber → JSString) (data : List Record) : JSString :=
  js ("\n" ++
    "            <table border=\"1\" cellpadding=\"10\" cellspacing=\"0\" style=\"width: 100%; border-collapse: collapse;\">\n" ++
    "                <thead>\n" ++
    "                    <tr style=\"background-color: #667eea; color: white;\">\n" ++
    "                        <th style=\"border: 1px solid #999; padding: 10px; text-align: center; font-weight: bold;\">No</th>\n" ++
    "                        <th style=\"border: 1px solid #999; padding: 10px; text-align: left; font-weight: bold;\">Nama</th>\n" ++
    "                        <th style=\"border: 1px solid #999; padding: 10px; text-align: center; font-weight: bold;\">NIK</th>\n" ++
    "                        <th style=\"border: 1px solid #999; padding: 10px; text-align: left; font-weight: bold;\">Alamat</th>\n" ++
    "                        <th style=\"border: 1px solid #999; padding: 10px; text-align: right; font-weight: bold;\">Nominal (Rp)</th>\n" ++
    "                        <th style=\"border: 1px solid #999; padding: 10px; text-align: left; font-weight: bold;\">Tanggal Input</th>\n" ++
    "                    </tr>\n" ++
    "                </thead>\n" ++
    "                <tbody>\n" ++
    "        ") ++
  ((wordRows numberFormat data).map wordRowMarkup).flatten ++
  js ("\n" ++
    "                </tbody>\n" ++
    "            </table>\n" ++
    "        ")

/-- The template literal of `html` in `exportToWord` around its interpolations: when the
report was printed (`printedAt`), the total (`total`) after the label `Total Data: `, and
the table (`table`). -/
def wordTemplate (printedAt total table : JSString) : JSString :=
  js ("\n" ++
    "            <html xmlns:o=\x27urn:schemas-microsoft-com:office:office\x27 xmlns:w=\x27urn:schemas-microsoft-com:office:word\x27 xmlns=\x27http://www.w3.org/TR/REC-html40\x27>\n" ++
    "            <head>\n" ++
    "                <meta charset=\x27utf-8\x27>\n" ++
    "                <title>Data Penduduk</title>\n" ++
    "            </head>\n" ++
    "            <body>\n" ++
    "                <h1 style=\"text-align: center; color: #333;\">📋 Laporan Data Penduduk</h1>\n" ++
    "                <p style=\"text-align: center; color: #666;\">Dicetak pada: ") ++
  printedAt ++
  js ("</p>\n" ++
    "                <p style=\"text-align: center; color: #666;\">Total Data: ") ++
  total ++
  js ("</p>\n" ++
    "                ") ++
  table ++
  js ("\n" ++
    "            </body>\n" ++
    "            </html>\n" ++
    "        ")

/-- The document `html` that `exportToWord` builds around the table: the total interpolated
is `this.data.length`. -/
def wordDocument (numberFormat : JSNumber → JSString) (localeNow : JSString)
    (data : List Record) : JSString :=
  wordTemplate localeNow (natDigits data.length) (generateWordTable numberFormat data)

/-! ## Exports -/

/-- What an export does to the world outside the registry, in order. -/
inductive Effect where
  /-- `showNotification(message, type)`. -/
  | showNotification (n : Notification)
  /-- `XLSX.writeFile` of a workbook with one sheet built from `rows`. -/
  | xlsxWriteFile (rows : List ExcelRow) (sheetName : JSString) (columnWidths : List Nat)
      (filename : JSString)
  /-- `html2pdf().set(options).from(element).save()` on an element holding `html`. -/
  | html2pdfSave (html : JSString) (filename : JSString)
  /-- `showNotification` in the callback run when the save has completed. -/
  | showNotificationWhenSaved (n : Notification)
  /-- The click on a link to a `Blob` of `content` with the given type and `download` name. -/
  | linkDownload (content : JSString) (mimeType : JSString) (filename : JSString)
  deriving DecidableEq, Repr

def msgNothingToExport : Notification := ⟨"❌ Tidak ada data untuk diunduh!", "danger"⟩
def msgExcelDone : Notification := ⟨"✓ Berhasil mengunduh file Excel!", "success"⟩
def msgPDFDone : Notification := ⟨"✓ Berhasil mengunduh file PDF!", "success"⟩
def msgWordDone : Notification := ⟨"✓ Berhasil mengunduh file Word!", "success"⟩

/-- `exportToExcel()`, where `stamp` is the clock read by `getTimestamp`. -/
def exportToExcel (data : List Record) (stamp : LocalClock) : List Effect :=
  if data.length = 0 then [Effect.showNotification msgNothingToExport]
  else
    [Effect.xlsxWriteFile (dataWithNo data) (js "Data Penduduk") [5, 25, 18, 30, 15, 20]
        (js "Data_Penduduk_" ++ getTimestamp stamp ++ js ".xlsx"),
      Effect.showNotification msgExcelDone]

/-- `exportToPDF()`, where `localeNow` is the text of the clock read by `generatePDFHTML`
and `stamp` the clock read by `getTimestamp`. -/
def exportToPDF (numberFormat : JSNumber → JSString) (data : List Record)
    (localeNow : JSString) (stamp : LocalClock) : List Effect :=
  if data.length = 0 then [Effect.showNotification msgNothingToExport]
  else
    [Effect.html2pdfSave (generatePDFHTML numberFormat localeNow data)
        (js "Data_Penduduk_" ++ getTimestamp stamp ++ js ".pdf"),
      Effect.showNotificationWhenSaved msgPDFDone]

/-- `exportToWord()`, where `localeNow` is the text of the clock read for the heading and
`stamp` the clock read by `getTimestamp`. -/
def exportToWord (numberFormat : JSNumber → JSString) (data : List Record)
    (localeNow : JSString) (stamp : LocalClock) : List Effect :=
  if data.length = 0 then [Effect.showNotification msgNothingToExport]
  else
    [Effect.linkDownload (wordDocument numberFormat localeNow data)
        (js "application/vnd.ms-word")
        (js "Data_Penduduk_" ++ getTimestamp stamp ++ js ".doc"),
      Effect.showNotification msgWordDone]

/-! ## Predicates and example data used by the theorems -/

/-- Every stored national id is 16 decimal digits and no two records share one. -/
def NikInvariant (data : List Record) : Prop :=
  (∀ r ∈ data, matchDigits 16 r.nik = true) ∧ (data.map Record.nik).Nodup

/-- The record named Budi Santoso of the examples, created at clock reading `now`. -/
def budi (now : Int) : Record :=
  { id := now
    nama := js "Budi Santoso"
    nik := js "3201012345678901"
    alamat := js "Jl. Merdeka No. 1"
    nominal := JSNumber.int 5000000
    tanggalInput := js "5/1/2025, 09.07.00" }

/-- A record named Ali Baba. -/
def aliBaba : Record :=
  { id := 1736042820000
    nama := js "Ali Baba"
    nik := js "3201019876543210"
    alamat := js "Jl. Sudirman 2"
    nominal := JSNumber.int 250000
    tanggalInput := js "5/1/2025, 09.07.00" }

/-- The form filled in for Budi Santoso, submitted at clock reading `now`. -/
def budiForm (now : Int) : Submission :=
  { nama := js " Budi Santoso "
    nik := js "3201012345678901"
    alamat := js "Jl. Merdeka No. 1 "
    nominal := js "5000000"
    now := now
    localeNow := js "5/1/2025, 09.07.00" }

/-- The form filled in for Siti Aminah, submitted at clock reading `now`. -/
def sitiForm (now : Int) : Submission :=
  { nama := js "Siti Aminah"
    nik := js "3201015555555555"
    alamat := js ""
    nominal := js "abc"
    now := now
    localeNow := js "5/1/2025, 09.07.00" }


/-- The value carried by the amount column of a spreadsheet row: a number. -/
def ExcelRow.amountValue (r : ExcelRow) : JSValue := JSValue.num r.Nominal

/-- The value carried by the amount column of a row of markup: a text. -/
def RowCells.amountValue (c : RowCells) : JSValue := JSValue.str c.nominal

/-- `addData` called once for each entry of `calls`, the first entry first. -/
def addAll (s : AppState) (calls : List Submission) : AppState :=
  calls.foldl
    (fun st f => (addData st f.nama f.nik f.alamat f.nominal f.now f.localeNow).1) s

/-- The five values of `map` in `escapeHtml`. -/
def entities : List JSString :=
  [js "&amp;", js "&lt;", js "&gt;", js "&quot;", js "&#039;"]

/-- A text has no white space at its start and none at its end. -/
def Trimmed (s : JSString) : Prop :=
  (∀ c, s.head? = some c → isWhiteSpace c = false) ∧
    (∀ c, s.getLast? = some c → isWhiteSpace c = false)

/-- Every stored name is trimmed and has at least 3 code units, every stored address is
trimmed. -/
def NameInvariant (data : List Record) : Prop :=
  ∀ r ∈ data, 3 ≤ r.nama.length ∧ Trimmed r.nama ∧ Trimmed r.alamat

/-- The order of `<=` on strings: code unit by code unit, a proper prefix before the text
it starts. -/
def textLE : JSString → JSString → Bool
  | [], _ => true
  | _ :: _, [] => false
  | a :: s, b :: t => decide (a < b) || (a == b && textLE s t)

/-- The ranges of the getters of a `Date`: month 0 to 11, day 1 to 31, hour 0 to 23, minute
0 to 59. -/
def LocalClock.InRange (t : LocalClock) : Prop :=
  t.month ≤ 11 ∧ 1 ≤ t.date ∧ t.date ≤ 31 ∧ t.hours ≤ 23 ∧ t.minutes ≤ 59

/-- The year has four digits. -/
def LocalClock.FourDigitYear (t : LocalClock) : Prop :=
  1000 ≤ t.fullYear ∧ t.fullYear ≤ 9999

/-- The clock `a` is not later than `b`, compared by year, month, day, hour and minute in
that order. -/
def LocalClock.notLaterThan (a b : LocalClock) : Prop :=
  a.fullYear < b.fullYear ∨ (a.fullYear = b.fullYear ∧
    (a.month < b.month ∨ (a.month = b.month ∧
      (a.date < b.date ∨ (a.date = b.date ∧
        (a.hours < b.hours ∨ (a.hours = b.hours ∧ a.minutes ≤ b.minutes)))))))

instance (t : LocalClock) : Decidable t.InRange :=
  inferInstanceAs (Decidable (t.month ≤ 11 ∧ 1 ≤ t.date ∧ t.date ≤ 31 ∧ t.hours ≤ 23 ∧
    t.minutes ≤ 59))

instance (t : LocalClock) : Decidable t.FourDigitYear :=
  inferInstanceAs (Decidable (1000 ≤ t.fullYear ∧ t.fullYear ≤ 9999))

instance (a b : LocalClock) : Decidable (a.notLaterThan b) :=
  inferInstanceAs (Decidable (a.fullYear < b.fullYear ∨ (a.fullYear = b.fullYear ∧
    (a.month < b.month ∨ (a.month = b.month ∧
      (a.date < b.date ∨ (a.date = b.date ∧
        (a.hours < b.hours ∨ (a.hours = b.hours ∧ a.minutes ≤ b.minutes)))))))))

end DataManager

open DataManager

/-! ## Lemmas on strings and validation -/

namespace DataManager

theorem matchDigits_iff (n : Nat) (s : JSString) :
    matchDigits n s = true ↔ s.length = n ∧ ∀ c ∈ s, 48 ≤ c ∧ c ≤ 57 := by
  induction n generalizing s with
  | zero => cases s <;> simp [matchDigits]
  | succ n ih =>
    cases s with
    | nil => simp [matchDigits]
    | cons c s => simp [matchDigits, ih, isDigit]; tauto

theorem dropWhile_all_iff (p : Nat → Bool) (s : List Nat) :
    (∀ c ∈ s.dropWhile p, p c = true) ↔ ∀ c ∈ s, p c = true := by
  induction s with
  | nil => simp
  | cons a s ih =>
    by_cases h : p a = true
    · simp [List.dropWhile_cons, h, ih]
    · simp [List.dropWhile_cons, h]

theorem trim_eq_nil_iff (s : JSString) :
    trim s = [] ↔ ∀ c ∈ s, isWhiteSpace c = true := by
  unfold trim trimEnd trimStart
  rw [List.reverse_eq_nil_iff, List.dropWhile_eq_nil_iff]
  simp only [List.mem_reverse]
  exact dropWhile_all_iff isWhiteSpace s

theorem dropWhile_eq_self (p : Nat → Bool) (s : List Nat) (h : ∀ c ∈ s, p c = false) :
    s.dropWhile p = s := by
  cases s with
  | nil => rfl
  | cons a s => simp [List.dropWhile_cons, h a (List.mem_cons_self a s)]

theorem trim_eq_self (s : JSString) (h : ∀ c ∈ s, isWhiteSpace c = false) : trim s = s := by
  unfold trim trimEnd trimStart
  rw [dropWhile_eq_self isWhiteSpace s h,
    dropWhile_eq_self isWhiteSpace s.reverse (by simpa using h), List.reverse_reverse]

theorem isWhiteSpace_digit (c : Nat) (h : 48 ≤ c ∧ c ≤ 57) : isWhiteSpace c = false := by
  have h1 := h.1
  have h2 := h.2
  simp only [isWhiteSpace, Bool.or_eq_false_iff, beq_eq_false_iff_ne, ne_eq, Bool.and_eq_false_imp,
    decide_eq_true_eq, decide_eq_false_iff_not]
  omega

theorem trim_of_matchDigits (n : Nat) (s : JSString) (h : matchDigits n s = true) :
    trim s = s :=
  trim_eq_self s (fun c hc => isWhiteSpace_digit c (((matchDigits_iff n s).1 h).2 c hc))

theorem includes_iff (s t : JSString) : includes s t = true ↔ t <:+: s := by
  unfold includes
  rw [List.any_eq_true]
  constructor
  · rintro ⟨u, hu, hp⟩
    exact List.IsInfix.trans (List.isPrefixOf_iff_prefix.1 hp).isInfix
      ((List.mem_tails u s).1 hu).isInfix
  · intro h
    obtain ⟨a, b, rfl⟩ := h
    refine ⟨t ++ b, (List.mem_tails _ _).2 ⟨a, by simp⟩, ?_⟩
    exact List.isPrefixOf_iff_prefix.2 (List.prefix_append t b)

theorem truthy_eq_false_iff (s : JSString) : truthy s = false ↔ s = [] := by
  cases s <;> simp [truthy]

theorem validateInput_accepts_iff (data : List Record) (nama nik : JSString) :
    (validateInput data nama nik).1 = true ↔
      3 ≤ (trim nama).length ∧ matchDigits 16 nik = true ∧ ∀ r ∈ data, r.nik ≠ nik := by
  unfold validateInput
  by_cases h1 : truthy (trim nama) = true
  · by_cases h2 : (trim nama).length < 3
    · simp [h1, h2]
    · by_cases h3 : matchDigits 16 nik = true
      · by_cases h4 : data.any (fun item => item.nik == nik) = true
        · have h4' := h4
          simp only [List.any_eq_true, beq_iff_eq] at h4'
          obtain ⟨r, hr, hrn⟩ := h4'
          simp only [h1, h2, h3, h4]
          simp only [Bool.not_true, Bool.false_eq_true, if_false, if_true]
          constructor
          · intro h; cases h
          · intro h; exact absurd hrn (h.2.2 r hr)
        · have h4' := h4
          simp only [List.any_eq_true, beq_iff_eq, not_exists, not_and] at h4'
          simp only [h1, h2, h3, h4]
          simp only [Bool.not_true, Bool.false_eq_true, if_false, true_iff]
          exact ⟨by omega, trivial, h4'⟩
      · simp [h1, h2, h3]
  · have h1' : trim nama = [] := (truthy_eq_false_iff _).1 (by simpa using h1)
    simp [h1', truthy]


/-! ## Lemmas on the registry -/

theorem nikInvariant_nil : NikInvariant [] := by
  simp [NikInvariant]

theorem nikInvariant_filter (p : Record → Bool) (data : List Record)
    (h : NikInvariant data) : NikInvariant (data.filter p) := by
  refine ⟨fun r hr => h.1 r (List.mem_of_mem_filter hr), ?_⟩
  exact h.2.sublist ((List.filter_sublist data).map Record.nik)

theorem submit_of_accepted (s : AppState) (f : Submission)
    (h : (validateInput s.data f.nama f.nik).1 = true) :
    (submit s f).1 = (addData s f.nama f.nik f.alamat f.nominal f.now f.localeNow).1 := by
  simp [submit, h]

theorem submit_of_rejected (s : AppState) (f : Submission)
    (h : (validateInput s.data f.nama f.nik).1 = false) :
    submit s f = (s, (validateInput s.data f.nama f.nik).2) := by
  simp [submit, h]

theorem addData_data (s : AppState) (nama nik alamat nominal : JSString) (now : Int)
    (localeNow : JSString) :
    (addData s nama nik alamat nominal now localeNow).1.data =
      (addData s nama nik alamat nominal now localeNow).2 :: s.data := rfl

theorem nikInvariant_submit (s : AppState) (f : Submission) (h : NikInvariant s.data) :
    NikInvariant (submit s f).1.data := by
  cases hv : (validateInput s.data f.nama f.nik).1 with
  | false => rw [submit_of_rejected s f hv]; exact h
  | true =>
    rw [submit_of_accepted s f hv, addData_data]
    obtain ⟨_, hd, hnew⟩ := (validateInput_accepts_iff s.data f.nama f.nik).1 hv
    have ht : trim f.nik = f.nik := trim_of_matchDigits 16 f.nik hd
    refine ⟨?_, ?_⟩
    · intro r hr
      rcases List.mem_cons.1 hr with rfl | hr
      · simpa [addData, ht] using hd
      · exact h.1 r hr
    · simp only [List.map_cons, List.nodup_cons]
      refine ⟨?_, h.2⟩
      simp only [addData, ht, List.mem_map, not_exists, not_and]
      exact fun r hr => hnew r hr

theorem nikInvariant_step (s : AppState) (e : Event) (h : NikInvariant s.data) :
    NikInvariant (step s e).data := by
  cases e with
  | submit f => exact nikInvariant_submit s f h
  | deleteDataHandler id confirmed =>
    cases confirmed
    · exact h
    · exact nikInvariant_filter _ _ h
  | deleteAll confirmed =>
    cases confirmed
    · exact h
    · exact nikInvariant_nil

theorem nikInvariant_run (events : List Event) (s : AppState) (h : NikInvariant s.data) :
    NikInvariant (run s events).data := by
  induction events generalizing s with
  | nil => exact h
  | cons e es ih => exact ih (step s e) (nikInvariant_step s e h)

theorem filter_ne_eq_eraseP (id : Int) (data : List Record)
    (h : data.countP (fun r => r.id == id) ≤ 1) :
    data.filter (fun item => item.id != id) = data.eraseP (fun r => r.id == id) := by
  induction data with
  | nil => rfl
  | cons a l ih =>
    by_cases ha : a.id = id
    · have hc : l.countP (fun r => r.id == id) = 0 := by
        simp [List.countP_cons, ha] at h
        simpa using h
      have hl : ∀ r ∈ l, ¬ (r.id == id) = true := by
        simpa [List.countP_eq_zero] using hc
      have hf : l.filter (fun item => item.id != id) = l := by
        rw [List.filter_eq_self]
        intro r hr
        simpa using hl r hr
      simp [List.filter_cons, ha, hf]
    · have hc : l.countP (fun r => r.id == id) ≤ 1 := by
        simpa [List.countP_cons, ha] using h
      simp [List.filter_cons, List.eraseP_cons, ha, ih hc]


/-! ## Lemmas on `JSON.parse` after `JSON.stringify` -/

theorem hexValue_hexDigit (d : Nat) (h : d < 16) : hexValue (hexDigit d) = some d := by
  interval_cases d <;> rfl

theorem parseStringBody_quote (t : JSString) : parseStringBody (34 :: t) = some ([], t) := by
  rw [parseStringBody.eq_def]; simp

theorem parseStringBody_literal (c : Nat) (t : JSString) (h1 : c ≠ 34) (h2 : c ≠ 92)
    (h3 : ¬ c < 32) :
    parseStringBody (c :: t) = (parseStringBody t).map (fun p => (c :: p.1, p.2)) := by
  rw [parseStringBody.eq_def]; simp [h1, h2, h3]

theorem parseStringBody_escape (e u : Nat) (t : JSString) (h : e ≠ 117)
    (hu : unescape e = some u) :
    parseStringBody (92 :: e :: t) = (parseStringBody t).map (fun p => (u :: p.1, p.2)) := by
  rw [parseStringBody.eq_def]; simp [h, hu]

theorem parseStringBody_unicodeEscape (c : Nat) (t : JSString) (h : c < 65536) :
    parseStringBody (unicodeEscape c ++ t) =
      (parseStringBody t).map (fun p => (c :: p.1, p.2)) := by
  have e : ((c / 4096 % 16 * 16 + c / 256 % 16) * 16 + c / 16 % 16) * 16 + c % 16 = c := by
    omega
  rw [parseStringBody.eq_def]
  simp [unicodeEscape, hexValue_hexDigit, Nat.mod_lt, e]

theorem parseStringBody_quoteUnit (c : Nat) (t : JSString) :
    parseStringBody (quoteUnit c ++ t) =
      (parseStringBody t).map (fun p => (c :: p.1, p.2)) := by
  unfold quoteUnit
  split_ifs with h8 h9 h10 h12 h13 h34 h92 h32
  · subst h8; exact parseStringBody_escape 98 8 t (by decide) rfl
  · subst h9; exact parseStringBody_escape 116 9 t (by decide) rfl
  · subst h10; exact parseStringBody_escape 110 10 t (by decide) rfl
  · subst h12; exact parseStringBody_escape 102 12 t (by decide) rfl
  · subst h13; exact parseStringBody_escape 114 13 t (by decide) rfl
  · subst h34; exact parseStringBody_escape 34 34 t (by decide) rfl
  · subst h92; exact parseStringBody_escape 92 92 t (by decide) rfl
  · exact parseStringBody_unicodeEscape c t (by omega)
  · exact parseStringBody_literal c t h34 h92 h32

theorem parseStringBody_surrogate (c : Nat) (t : JSString)
    (h : (isHighSurrogate c || isLowSurrogate c) = true) :
    parseStringBody (unicodeEscape c ++ t) =
      (parseStringBody t).map (fun p => (c :: p.1, p.2)) := by
  apply parseStringBody_unicodeEscape
  simp [isHighSurrogate, isLowSurrogate] at h
  omega

theorem parseStringBody_pair (c d : Nat) (t : JSString)
    (h : (isHighSurrogate c && isLowSurrogate d) = true) :
    parseStringBody (c :: d :: t) =
      (parseStringBody t).map (fun p => (c :: d :: p.1, p.2)) := by
  simp [isHighSurrogate, isLowSurrogate] at h
  rw [parseStringBody_literal c _ (by omega) (by omega) (by omega),
    parseStringBody_literal d _ (by omega) (by omega) (by omega)]
  cases parseStringBody t <;> rfl

theorem parseStringBody_quoteUnits (s : JSString) (rest : JSString) :
    parseStringBody (quoteUnits s ++ 34 :: rest) = some (s, rest) := by
  induction s using quoteUnits.induct with
  | case1 => simp [quoteUnits, parseStringBody_quote]
  | case2 c h =>
    simp [quoteUnits, h, parseStringBody_surrogate c _ h, parseStringBody_quote]
  | case3 c h =>
    simp [quoteUnits, h, parseStringBody_quoteUnit, parseStringBody_quote]
  | case4 c d rest' h ih =>
    simp only [quoteUnits, h, if_true, List.cons_append]
    rw [parseStringBody_pair c d _ h, ih]
    rfl
  | case5 c d rest' h1 h2 ih =>
    simp only [quoteUnits, h1, h2, if_true, List.append_assoc]
    simp only [Bool.false_eq_true, if_false]
    rw [List.append_assoc, parseStringBody_surrogate c _ h2, ih]
    rfl
  | case6 c d rest' h1 h2 ih =>
    simp only [quoteUnits, h1, h2, List.append_assoc]
    simp only [Bool.false_eq_true, if_false]
    rw [List.append_assoc, parseStringBody_quoteUnit, ih]
    rfl

theorem digitsValue_append (ds : JSString) (d : Nat) :
    digitsValue (ds ++ [d]) = 10 * digitsValue ds + (d - 48) := by
  simp [digitsValue, List.foldl_append]

theorem natDigitsFuel_spec (fuel n : Nat) (h : n < fuel) :
    digitsValue (natDigitsFuel fuel n) = n ∧
      (∀ c ∈ natDigitsFuel fuel n, isDigit c = true) ∧
      ∃ c t, natDigitsFuel fuel n = c :: t ∧ (n = 0 → c = 48 ∧ t = []) ∧ (n ≠ 0 → c ≠ 48) := by
  induction fuel generalizing n with
  | zero => omega
  | succ fuel ih =>
    by_cases hn : n < 10
    · simp only [natDigitsFuel, hn, if_true]
      refine ⟨by simp [digitsValue], ?_, 48 + n, [], rfl, fun h0 => ⟨by omega, rfl⟩,
        fun h0 => by omega⟩
      intro c hc
      simp only [List.mem_singleton] at hc
      subst hc
      simp [isDigit]
      omega
    · simp only [natDigitsFuel, hn, if_false]
      obtain ⟨hv, hd, c, t, hct, _, hne⟩ := ih (n / 10) (by omega)
      refine ⟨?_, ?_, c, t ++ [48 + n % 10], by rw [hct]; rfl, fun h0 => by omega,
        fun _ => hne (by omega)⟩
      · rw [digitsValue_append, hv]; omega
      · intro x hx
        rcases List.mem_append.1 hx with hx | hx
        · exact hd x hx
        · simp only [List.mem_singleton] at hx
          subst hx
          simp [isDigit]
          omega

theorem takeDigits_append (ds : JSString) (x : Nat) (rest : JSString)
    (hd : ∀ c ∈ ds, isDigit c = true) (hx : isDigit x = false) :
    takeDigits (ds ++ x :: rest) = (ds, x :: rest) := by
  induction ds with
  | nil => simp [takeDigits, hx]
  | cons a l ih =>
    have ha : isDigit a = true := hd a (List.mem_cons_self a l)
    have hl := ih (fun c hc => hd c (List.mem_cons_of_mem a hc))
    simp [takeDigits, ha, hl]

theorem parseWhole_natDigits (n x : Nat) (rest : JSString) (hx : isDigit x = false) :
    parseWhole (natDigits n ++ x :: rest) = some (n, x :: rest) := by
  obtain ⟨hv, hd, c, t, hct, h0, hne⟩ := natDigitsFuel_spec (n + 1) n (by omega)
  unfold natDigits
  by_cases hn : n = 0
  · obtain ⟨hc, ht⟩ := h0 hn
    rw [hct, hc, ht, hn]
    simp [parseWhole]
  · have hc : isDigit c = true := hd c (by rw [hct]; exact List.mem_cons_self c t)
    have ht : ∀ y ∈ t, isDigit y = true :=
      fun y hy => hd y (by rw [hct]; exact List.mem_cons_of_mem c hy)
    rw [hct] at hv
    rw [hct]
    simp [parseWhole, hne hn, hc, takeDigits_append t x rest ht hx, hv]

theorem natDigits_head (n : Nat) : ∃ c t, natDigits n = c :: t ∧ isDigit c = true := by
  obtain ⟨_, hd, c, t, hct, _, _⟩ := natDigitsFuel_spec (n + 1) n (by omega)
  exact ⟨c, t, hct, hd c (by rw [hct]; exact List.mem_cons_self c t)⟩

theorem numberValue_whole (negative : Bool) (n : Nat) (h : negative = true → n ≠ 0) :
    numberValue negative n [] 0 =
      JSValue.num (JSNumber.int (if negative then -(n : Int) else n)) := by
  by_cases hn : n = 0
  · subst hn
    cases negative
    · simp [numberValue, digitsValue]
    · exact absurd rfl (h rfl)
  · simp [numberValue, digitsValue, hn]

theorem parseNumber_intToString (z : Int) (rest : JSString) :
    parseNumber (intToString z ++ 44 :: rest) =
      some (JSValue.num (JSNumber.int z), 44 :: rest) := by
  have h44 : isDigit 44 = false := by decide
  by_cases hz : z < 0
  · have hneg : (-(z.natAbs : Int)) = z := by omega
    have hv := numberValue_whole true z.natAbs (fun _ => by omega)
    simp only [intToString, hz, if_true, List.cons_append, parseNumber,
      parseWhole_natDigits _ 44 rest h44, parseFraction, parseExponent]
    simp only [show (44 : Nat) = 46 ↔ False from by decide,
      show (44 : Nat) = 101 ↔ False from by decide,
      show (44 : Nat) = 69 ↔ False from by decide, if_false, or_self, hv, if_true, hneg]
  · have hpos : (z.natAbs : Int) = z := by omega
    have hv := numberValue_whole false z.natAbs (fun h => by cases h)
    obtain ⟨c, t, hct, hc⟩ := natDigits_head z.natAbs
    have hc45 : c ≠ 45 := by
      intro h; subst h; simp [isDigit] at hc
    have hw := parseWhole_natDigits z.natAbs 44 rest h44
    rw [hct] at hw
    simp only [List.cons_append] at hw
    simp [intToString, hz, parseNumber, hct, hc45, hw, parseFraction,
      parseExponent, hv, hpos]

theorem intToString_head (z : Int) :
    ∃ c t, intToString z = c :: t ∧ (c = 45 ∨ isDigit c = true) := by
  by_cases hz : z < 0
  · exact ⟨45, natDigits z.natAbs, by simp [intToString, hz], Or.inl rfl⟩
  · obtain ⟨c, t, hct, hc⟩ := natDigits_head z.natAbs
    exact ⟨c, t, by simp [intToString, hz, hct], Or.inr hc⟩

theorem parseValue_succ (fuel c : Nat) (rest : JSString) (hc : isJSONWhiteSpace c = false) :
    parseValue (fuel + 1) (c :: rest) =
      if c = 34 then (parseStringBody rest).map (fun p => (JSValue.str p.1, p.2))
      else if c = 91 then
        match skipWhiteSpace rest with
        | [] => none
        | d :: rest1 =>
          if d = 93 then some (JSValue.arr [], rest1)
          else (parseElements fuel rest).map (fun p => (JSValue.arr p.1, p.2))
      else if c = 123 then
        match skipWhiteSpace rest with
        | [] => none
        | d :: rest1 =>
          if d = 125 then some (JSValue.obj [], rest1)
          else (parseMembers fuel rest).map (fun p => (JSValue.obj (defineProperties p.1), p.2))
      else if c = 116 then
        (dropLiteral [114, 117, 101] rest).map (fun r => (JSValue.bool true, r))
      else if c = 102 then
        (dropLiteral [97, 108, 115, 101] rest).map (fun r => (JSValue.bool false, r))
      else if c = 110 then
        (dropLiteral [117, 108, 108] rest).map (fun r => (JSValue.null, r))
      else parseNumber (c :: rest) := by
  rw [parseValue]
  simp only [skipWhiteSpace, List.dropWhile_cons, hc]
  rfl

theorem parseValue_number (fuel : Nat) (z : Int) (rest : JSString) :
    parseValue (fuel + 1) (intToString z ++ 44 :: rest) =
      some (JSValue.num (JSNumber.int z), 44 :: rest) := by
  obtain ⟨c, t, hct, hc⟩ := intToString_head z
  have hp := parseNumber_intToString z rest
  rw [hct] at hp ⊢
  have hws : isJSONWhiteSpace c = false := by
    rcases hc with rfl | hc
    · decide
    · simp [isDigit] at hc; simp [isJSONWhiteSpace]; omega
  have hne : c ≠ 34 ∧ c ≠ 91 ∧ c ≠ 123 ∧ c ≠ 116 ∧ c ≠ 102 ∧ c ≠ 110 := by
    rcases hc with rfl | hc
    · decide
    · simp [isDigit] at hc; omega
  simp only [List.cons_append] at hp ⊢
  rw [parseValue_succ fuel c _ hws]
  simp only [hne.1, hne.2.1, hne.2.2.1, hne.2.2.2.1, hne.2.2.2.2.1, hne.2.2.2.2.2, if_false]
  exact hp

theorem parseValue_string (fuel : Nat) (s rest : JSString) :
    parseValue (fuel + 1) (quoteJSONString s ++ rest) = some (JSValue.str s, rest) := by
  simp only [quoteJSONString, List.cons_append, List.append_assoc, List.nil_append]
  rw [parseValue_succ fuel 34 _ (by decide), if_pos rfl, parseStringBody_quoteUnits]
  rfl

theorem parseValue_null (fuel : Nat) (rest : JSString) :
    parseValue (fuel + 1) (110 :: 117 :: 108 :: 108 :: rest) = some (JSValue.null, rest) := by
  rw [parseValue_succ fuel 110 _ (by decide)]
  simp [dropLiteral, List.isPrefixOf]

theorem parseValue_stringifyNumber (fuel : Nat) (n : JSNumber) (rest : JSString) :
    parseValue (fuel + 1) (stringifyNumber n ++ 44 :: rest) =
      some (storedNumber n, 44 :: rest) := by
  cases n with
  | nan => exact parseValue_null fuel _
  | infinity negative => exact parseValue_null fuel _
  | negZero =>
    have e : intToString 0 = [48] := by decide
    have h := parseValue_number fuel 0 rest
    rw [e] at h
    exact h
  | int z => exact parseValue_number fuel z rest

theorem parseMembers_succ (fuel : Nat) (k text : JSString) (hk : quoteUnits k = k) :
    parseMembers (fuel + 1) (34 :: (k ++ 34 :: 58 :: text)) =
      match parseValue fuel text with
      | none => none
      | some (v, rest3) =>
        match skipWhiteSpace rest3 with
        | [] => none
        | c :: rest4 =>
          if c = 44 then (parseMembers fuel rest4).map (fun p => ((k, v) :: p.1, p.2))
          else if c = 125 then some ([(k, v)], rest4)
          else none := by
  have hs := parseStringBody_quoteUnits k (58 :: text)
  rw [hk] at hs
  have h34 : isJSONWhiteSpace 34 = false := by decide
  have h58 : isJSONWhiteSpace 58 = false := by decide
  rw [parseMembers]
  simp only [skipWhiteSpace, List.dropWhile_cons, h34, h58, hs, Bool.false_eq_true, if_false,
    if_true]

theorem parseMembers_more (fuel : Nat) (k text : JSString) (hk : quoteUnits k = k)
    (v : JSValue) (rest4 : JSString) (hv : parseValue fuel text = some (v, 44 :: rest4)) :
    parseMembers (fuel + 1) (34 :: (k ++ 34 :: 58 :: text)) =
      (parseMembers fuel rest4).map (fun p => ((k, v) :: p.1, p.2)) := by
  rw [parseMembers_succ fuel k text hk, hv]
  rfl

theorem parseMembers_last (fuel : Nat) (k text : JSString) (hk : quoteUnits k = k)
    (v : JSValue) (rest4 : JSString) (hv : parseValue fuel text = some (v, 125 :: rest4)) :
    parseMembers (fuel + 1) (34 :: (k ++ 34 :: 58 :: text)) = some ([(k, v)], rest4) := by
  rw [parseMembers_succ fuel k text hk, hv]
  rfl

theorem stringifyRecord_append (r : Record) (rest : JSString) :
    stringifyRecord r ++ rest =
      123 :: 34 :: (js "id" ++ 34 :: 58 :: (intToString r.id ++
      44 :: 34 :: (js "nama" ++ 34 :: 58 :: (quoteJSONString r.nama ++
      44 :: 34 :: (js "nik" ++ 34 :: 58 :: (quoteJSONString r.nik ++
      44 :: 34 :: (js "alamat" ++ 34 :: 58 :: (quoteJSONString r.alamat ++
      44 :: 34 :: (js "nominal" ++ 34 :: 58 :: (stringifyNumber r.nominal ++
      44 :: 34 :: (js "tanggalInput" ++ 34 :: 58 :: (quoteJSONString r.tanggalInput ++
      125 :: rest)))))))))))) := by
  have e1 : js "\x7b\"id\":" = 123 :: 34 :: (js "id" ++ [34, 58]) := by decide
  have e2 : js ",\"nama\":" = 44 :: 34 :: (js "nama" ++ [34, 58]) := by decide
  have e3 : js ",\"nik\":" = 44 :: 34 :: (js "nik" ++ [34, 58]) := by decide
  have e4 : js ",\"alamat\":" = 44 :: 34 :: (js "alamat" ++ [34, 58]) := by decide
  have e5 : js ",\"nominal\":" = 44 :: 34 :: (js "nominal" ++ [34, 58]) := by decide
  have e6 : js ",\"tanggalInput\":" = 44 :: 34 :: (js "tanggalInput" ++ [34, 58]) := by decide
  have e7 : js "\x7d" = [125] := by decide
  unfold stringifyRecord
  rw [e1, e2, e3, e4, e5, e6, e7]
  simp only [List.append_assoc, List.cons_append, List.nil_append]

theorem defineProperties_record (a b c d e f : JSValue) :
    defineProperties [(js "id", a), (js "nama", b), (js "nik", c), (js "alamat", d),
      (js "nominal", e), (js "tanggalInput", f)] =
      [(js "id", a), (js "nama", b), (js "nik", c), (js "alamat", d),
        (js "nominal", e), (js "tanggalInput", f)] := by
  have k1 : js "id" = [105, 100] := by decide
  have k2 : js "nama" = [110, 97, 109, 97] := by decide
  have k3 : js "nik" = [110, 105, 107] := by decide
  have k4 : js "alamat" = [97, 108, 97, 109, 97, 116] := by decide
  have k5 : js "nominal" = [110, 111, 109, 105, 110, 97, 108] := by decide
  have k6 : js "tanggalInput" =
      [116, 97, 110, 103, 103, 97, 108, 73, 110, 112, 117, 116] := by decide
  rw [k1, k2, k3, k4, k5, k6]
  simp [defineProperties, setProperty]

theorem parseValue_record (fuel : Nat) (r : Record) (rest : JSString) :
    parseValue (fuel + 8) (stringifyRecord r ++ rest) = some (r.storedValue, rest) := by
  rw [stringifyRecord_append, parseValue_succ (fuel + 7) 123 _ (by decide)]
  have h34 : skipWhiteSpace (34 :: (js "id" ++ 34 :: 58 :: (intToString r.id ++
      44 :: 34 :: (js "nama" ++ 34 :: 58 :: (quoteJSONString r.nama ++
      44 :: 34 :: (js "nik" ++ 34 :: 58 :: (quoteJSONString r.nik ++
      44 :: 34 :: (js "alamat" ++ 34 :: 58 :: (quoteJSONString r.alamat ++
      44 :: 34 :: (js "nominal" ++ 34 :: 58 :: (stringifyNumber r.nominal ++
      44 :: 34 :: (js "tanggalInput" ++ 34 :: 58 :: (quoteJSONString r.tanggalInput ++
      125 :: rest))))))))))))) = 34 :: (js "id" ++ 34 :: 58 :: (intToString r.id ++
      44 :: 34 :: (js "nama" ++ 34 :: 58 :: (quoteJSONString r.nama ++
      44 :: 34 :: (js "nik" ++ 34 :: 58 :: (quoteJSONString r.nik ++
      44 :: 34 :: (js "alamat" ++ 34 :: 58 :: (quoteJSONString r.alamat ++
      44 :: 34 :: (js "nominal" ++ 34 :: 58 :: (stringifyNumber r.nominal ++
      44 :: 34 :: (js "tanggalInput" ++ 34 :: 58 :: (quoteJSONString r.tanggalInput ++
      125 :: rest)))))))))))) := rfl
  have hm : parseMembers (fuel + 7) (34 :: (js "id" ++ 34 :: 58 :: (intToString r.id ++
      44 :: 34 :: (js "nama" ++ 34 :: 58 :: (quoteJSONString r.nama ++
      44 :: 34 :: (js "nik" ++ 34 :: 58 :: (quoteJSONString r.nik ++
      44 :: 34 :: (js "alamat" ++ 34 :: 58 :: (quoteJSONString r.alamat ++
      44 :: 34 :: (js "nominal" ++ 34 :: 58 :: (stringifyNumber r.nominal ++
      44 :: 34 :: (js "tanggalInput" ++ 34 :: 58 :: (quoteJSONString r.tanggalInput ++
      125 :: rest))))))))))))) =
      some ([(js "id", JSValue.num (JSNumber.int r.id)), (js "nama", JSValue.str r.nama),
        (js "nik", JSValue.str r.nik), (js "alamat", JSValue.str r.alamat),
        (js "nominal", storedNumber r.nominal),
        (js "tanggalInput", JSValue.str r.tanggalInput)], rest) := by
    rw [parseMembers_more (fuel + 6) (js "id") _ (by decide) _ _ (parseValue_number _ _ _),
      parseMembers_more (fuel + 5) (js "nama") _ (by decide) _ _ (parseValue_string _ _ _),
      parseMembers_more (fuel + 4) (js "nik") _ (by decide) _ _ (parseValue_string _ _ _),
      parseMembers_more (fuel + 3) (js "alamat") _ (by decide) _ _ (parseValue_string _ _ _),
      parseMembers_more (fuel + 2) (js "nominal") _ (by decide) _ _
        (parseValue_stringifyNumber _ _ _),
      parseMembers_last (fuel + 1) (js "tanggalInput") _ (by decide) _ _
        (parseValue_string _ _ _)]
    rfl
  rw [h34]
  simp only [hm, Record.storedValue, defineProperties_record]
  rfl

theorem stringifyElements_cons_cons (r r' : Record) (rs : List Record) :
    stringifyElements (r :: r' :: rs) =
      stringifyRecord r ++ 44 :: stringifyElements (r' :: rs) := by
  simp [stringifyElements]

theorem stringifyElements_cons (r : Record) (rs : List Record) :
    ∃ t, stringifyElements (r :: rs) = 123 :: t ∧ rs.length + 5 ≤ t.length := by
  induction rs generalizing r with
  | nil =>
    have h := stringifyRecord_append r []
    rw [List.append_nil] at h
    refine ⟨_, by rw [stringifyElements]; exact h, ?_⟩
    simp only [List.length_cons, List.length_append, List.length_nil]
    omega
  | cons r' rs' ih =>
    obtain ⟨t, ht, hl⟩ := ih r'
    have h := stringifyRecord_append r (44 :: stringifyElements (r' :: rs'))
    refine ⟨_, by rw [stringifyElements_cons_cons]; exact h, ?_⟩
    rw [ht]
    simp only [List.length_cons, List.length_append]
    omega

theorem parseElements_stringifyElements (rs : List Record) (r : Record) (fuel : Nat)
    (rest : JSString) :
    parseElements (fuel + rs.length + 9) (stringifyElements (r :: rs) ++ 93 :: rest) =
      some ((r :: rs).map Record.storedValue, rest) := by
  have h93 : isJSONWhiteSpace 93 = false := by decide
  have h44 : isJSONWhiteSpace 44 = false := by decide
  induction rs generalizing r fuel with
  | nil =>
    rw [stringifyElements, show fuel + ([] : List Record).length + 9 = (fuel + 8) + 1 from rfl,
      parseElements, parseValue_record]
    simp [skipWhiteSpace, List.dropWhile_cons, h93]
  | cons r' rs' ih =>
    rw [stringifyElements_cons_cons, List.append_assoc, List.cons_append,
      show fuel + (r' :: rs').length + 9 = ((fuel + rs'.length + 1) + 8) + 1 from by
        simp only [List.length_cons]; omega,
      parseElements, parseValue_record]
    simp only [skipWhiteSpace, List.dropWhile_cons, h44, Bool.false_eq_true, if_false, if_true]
    rw [show fuel + rs'.length + 1 + 8 = fuel + rs'.length + 9 from rfl, ih r' fuel]
    rfl

theorem JSON_parse_stringify (data : List Record) :
    JSON.parse (stringify data) = Except.ok (storedValue data) := by
  cases data with
  | nil => rfl
  | cons r rs =>
    obtain ⟨t, ht, hl⟩ := stringifyElements_cons r rs
    have hfuel : ∃ k, 2 * (stringify (r :: rs)).length + 2 = (k + rs.length + 9) + 1 := by
      refine ⟨2 * (stringify (r :: rs)).length + 2 - (rs.length + 10), ?_⟩
      simp only [stringify, ht, List.length_cons, List.length_append, List.length_nil]
      omega
    obtain ⟨k, hk⟩ := hfuel
    have hp := parseElements_stringifyElements rs r k []
    unfold JSON.parse
    rw [hk]
    simp only [stringify]
    rw [parseValue_succ _ 91 _ (by decide)]
    have hskip : skipWhiteSpace (stringifyElements (r :: rs) ++ [93]) = 123 :: (t ++ [93]) := by
      rw [ht]; rfl
    simp only [hskip, hp]
    rfl

theorem storedValue_eq_dataValue (data : List Record)
    (h : ∀ r ∈ data, ∃ z, r.nominal = JSNumber.int z) : storedValue data = dataValue data := by
  unfold storedValue dataValue
  congr 1
  apply List.map_congr_left
  intro r hr
  obtain ⟨z, hz⟩ := h r hr
  simp [Record.storedValue, Record.toValue, hz, storedNumber]

theorem loadFromLocalStorage_stringify (data : List Record) :
    loadFromLocalStorage (some (stringify data)) = Except.ok (storedValue data) := by
  simp [loadFromLocalStorage, truthy, stringify, ← JSON_parse_stringify]

/-! ## Lemmas on the reports -/

theorem mapWithIndexFrom_length {α β : Type} (f : α → Nat → β) (start : Nat) (xs : List α) :
    (mapWithIndexFrom f start xs).length = xs.length := by
  induction xs generalizing start with
  | nil => rfl
  | cons x xs ih => simp [mapWithIndexFrom, ih]

theorem mapWithIndexFrom_getElem? {α β : Type} (f : α → Nat → β) (start : Nat) (xs : List α)
    (i : Nat) :
    (mapWithIndexFrom f start xs)[i]? = (xs[i]?).map (fun x => f x (start + i)) := by
  induction xs generalizing start i with
  | nil => simp [mapWithIndexFrom]
  | cons x xs ih =>
    cases i with
    | zero => simp [mapWithIndexFrom]
    | succ i =>
      simp only [mapWithIndexFrom, List.getElem?_cons_succ, ih]
      congr 1
      funext y
      congr 1
      omega

theorem mapWithIndex_length {α β : Type} (f : α → Nat → β) (xs : List α) :
    (mapWithIndex f xs).length = xs.length :=
  mapWithIndexFrom_length f 0 xs

theorem mapWithIndex_getElem? {α β : Type} (f : α → Nat → β) (xs : List α) (i : Nat) :
    (mapWithIndex f xs)[i]? = (xs[i]?).map (fun x => f x i) := by
  unfold mapWithIndex
  rw [mapWithIndexFrom_getElem?]
  simp

theorem js_append (a b : String) : js (a ++ b) = js a ++ js b := by
  simp [js, String.toList, String.data_append]

theorem infix_append_left (l a b : JSString) (h : l <:+: b) : l <:+: a ++ b :=
  h.trans (List.suffix_append a b).isInfix

theorem amounts_of_storedValue_eq (data : List Record)
    (h : storedValue data = dataValue data) :
    ∀ r ∈ data, ∃ z, r.nominal = JSNumber.int z := by
  unfold storedValue dataValue at h
  have hmap : data.map Record.storedValue = data.map Record.toValue := JSValue.arr.inj h
  intro r hr
  have hrv : r.storedValue = r.toValue := List.map_inj_left.1 hmap r hr
  cases hn : r.nominal with
  | int z => exact ⟨z, rfl⟩
  | nan => simp [Record.storedValue, Record.toValue, hn, storedNumber] at hrv
  | infinity negative => simp [Record.storedValue, Record.toValue, hn, storedNumber] at hrv
  | negZero => simp [Record.storedValue, Record.toValue, hn, storedNumber] at hrv

/-! ## Lemmas on trimmed text -/

theorem head?_dropWhile_not (p : Nat → Bool) (l : List Nat) (c : Nat)
    (h : (l.dropWhile p).head? = some c) : p c = false := by
  induction l with
  | nil => simp at h
  | cons a l ih =>
    by_cases ha : p a = true
    · simp only [List.dropWhile_cons, ha, if_true] at h
      exact ih h
    · simp only [List.dropWhile_cons, ha, Bool.false_eq_true, if_false, List.head?_cons,
        Option.some.injEq] at h
      subst h
      simpa using ha

theorem trimmed_trim (s : JSString) : Trimmed (trim s) := by
  unfold Trimmed trim trimEnd trimStart
  constructor
  · intro c hc
    have hpre : ((s.dropWhile isWhiteSpace).reverse.dropWhile isWhiteSpace).reverse <+:
        s.dropWhile isWhiteSpace := by
      have h := List.reverse_prefix.2
        (List.dropWhile_suffix (l := (s.dropWhile isWhiteSpace).reverse) isWhiteSpace)
      rwa [List.reverse_reverse] at h
    obtain ⟨v, hv⟩ := hpre
    apply head?_dropWhile_not isWhiteSpace s c
    rw [← hv]
    cases hu : ((s.dropWhile isWhiteSpace).reverse.dropWhile isWhiteSpace).reverse with
    | nil => rw [hu] at hc; simp at hc
    | cons a l =>
      rw [hu] at hc
      simpa using hc
  · intro c hc
    rw [List.getLast?_reverse] at hc
    exact head?_dropWhile_not isWhiteSpace _ c hc

theorem nameInvariant_nil : NameInvariant [] := by
  simp [NameInvariant]

theorem nameInvariant_submit (s : AppState) (f : Submission) (h : NameInvariant s.data) :
    NameInvariant (submit s f).1.data := by
  cases hv : (validateInput s.data f.nama f.nik).1 with
  | false => rw [submit_of_rejected s f hv]; exact h
  | true =>
    rw [submit_of_accepted s f hv, addData_data]
    obtain ⟨hlen, _, _⟩ := (validateInput_accepts_iff s.data f.nama f.nik).1 hv
    intro r hr
    rcases List.mem_cons.1 hr with rfl | hr
    · exact ⟨hlen, trimmed_trim f.nama, trimmed_trim f.alamat⟩
    · exact h r hr

theorem nameInvariant_step (s : AppState) (e : Event) (h : NameInvariant s.data) :
    NameInvariant (step s e).data := by
  cases e with
  | submit f => exact nameInvariant_submit s f h
  | deleteDataHandler id confirmed =>
    cases confirmed
    · exact h
    · exact fun r hr => h r (List.mem_of_mem_filter hr)
  | deleteAll confirmed =>
    cases confirmed
    · exact h
    · exact nameInvariant_nil

theorem nameInvariant_run (events : List Event) (s : AppState) (h : NameInvariant s.data) :
    NameInvariant (run s events).data := by
  induction events generalizing s with
  | nil => exact h
  | cons e es ih => exact ih (step s e) (nameInvariant_step s e h)

/-! ## Lemmas on `escapeHtml` -/

theorem escapeHtml_cons (c : Nat) (text : JSString) :
    escapeHtml (c :: text) = escapeHtml [c] ++ escapeHtml text := by
  simp [escapeHtml]

theorem escapeHtml_append (a b : JSString) :
    escapeHtml (a ++ b) = escapeHtml a ++ escapeHtml b := by
  simp [escapeHtml]

theorem escapeHtml_single (c : Nat) :
    escapeHtml [c] =
      if c = 38 then js "&amp;" else if c = 60 then js "&lt;" else if c = 62 then js "&gt;"
      else if c = 34 then js "&quot;" else if c = 39 then js "&#039;" else [c] := by
  simp [escapeHtml]

theorem escapeHtml_single_cases (c : Nat) :
    (escapeHtml [c] ∈ entities) ∨
      (escapeHtml [c] = [c] ∧ c ≠ 38 ∧ c ≠ 60 ∧ c ≠ 62 ∧ c ≠ 34 ∧ c ≠ 39) := by
  rw [escapeHtml_single]
  split_ifs with h1 h2 h3 h4 h5
  · left; simp [entities]
  · left; simp [entities]
  · left; simp [entities]
  · left; simp [entities]
  · left; simp [entities]
  · right; exact ⟨rfl, h1, h2, h3, h4, h5⟩

theorem entity_shape (e : JSString) (he : e ∈ entities) :
    ∃ t, e = 38 :: t ∧ ∀ c ∈ t, c ≠ 38 ∧ c ≠ 60 ∧ c ≠ 62 ∧ c ≠ 34 ∧ c ≠ 39 := by
  simp only [entities, List.mem_cons, List.mem_singleton, List.not_mem_nil, or_false] at he
  rcases he with rfl | rfl | rfl | rfl | rfl
  · exact ⟨js "amp;", by decide, by decide⟩
  · exact ⟨js "lt;", by decide, by decide⟩
  · exact ⟨js "gt;", by decide, by decide⟩
  · exact ⟨js "quot;", by decide, by decide⟩
  · exact ⟨js "#039;", by decide, by decide⟩

theorem escapeHtml_no_markup (text : JSString) :
    ∀ c ∈ escapeHtml text, c ≠ 60 ∧ c ≠ 62 ∧ c ≠ 34 ∧ c ≠ 39 := by
  induction text with
  | nil => simp [escapeHtml]
  | cons a text ih =>
    intro c hc
    rw [escapeHtml_cons] at hc
    rcases List.mem_append.1 hc with h | h
    · rcases escapeHtml_single_cases a with he | ⟨he, _, h60, h62, h34, h39⟩
      · obtain ⟨t, ht, hne⟩ := entity_shape _ he
        rw [ht] at h
        rcases List.mem_cons.1 h with rfl | h
        · decide
        · exact (hne c h).2
      · rw [he, List.mem_singleton] at h
        subst h
        exact ⟨h60, h62, h34, h39⟩
    · exact ih c h

theorem escapeHtml_ampersand (text pre post : JSString)
    (h : escapeHtml text = pre ++ 38 :: post) :
    ∃ e ∈ entities, e <+: 38 :: post := by
  induction text generalizing pre with
  | nil => simp [escapeHtml] at h
  | cons a text ih =>
    rw [escapeHtml_cons] at h
    rcases List.append_eq_append_iff.1 h with ⟨v, hpre, htext⟩ | ⟨v, hrep, hpost⟩
    · exact ih v htext
    · cases v with
      | nil =>
        rw [List.nil_append] at hpost
        exact ih [] hpost.symm
      | cons b v =>
        rw [List.cons_append, List.cons.injEq] at hpost
        obtain ⟨hb, hv⟩ := hpost
        subst hb
        rcases escapeHtml_single_cases a with he | ⟨he, h38, _⟩
        · obtain ⟨t, ht, hne⟩ := entity_shape _ he
          have hpre : pre = [] := by
            cases pre with
            | nil => rfl
            | cons p pre =>
              rw [ht, List.cons_append, List.cons.injEq] at hrep
              exact absurd rfl (hne 38 (by rw [hrep.2]; simp)).1
          subst hpre
          rw [List.nil_append] at hrep
          refine ⟨_, he, ?_⟩
          rw [hrep, hv]
          exact List.prefix_append _ _
        · rw [he] at hrep
          cases pre with
          | nil =>
            rw [List.nil_append, List.cons.injEq] at hrep
            exact absurd hrep.1 h38
          | cons p pre =>
            rw [List.cons_append, List.cons.injEq] at hrep
            have := hrep.2
            simp at this

/-! ## Lemmas on decimal digits and the timestamp -/

theorem natDigitsFuel_fuel (f1 f2 n : Nat) (h1 : n < f1) (h2 : n < f2) :
    natDigitsFuel f1 n = natDigitsFuel f2 n := by
  induction f1 generalizing f2 n with
  | zero => omega
  | succ f1 ih =>
    cases f2 with
    | zero => omega
    | succ f2 =>
      by_cases hn : n < 10
      · simp [natDigitsFuel, hn]
      · simp only [natDigitsFuel, hn, if_false]
        rw [ih f2 (n / 10) (by omega) (by omega)]

theorem natDigits_of_lt_ten (n : Nat) (h : n < 10) : natDigits n = [48 + n] := by
  simp [natDigits, natDigitsFuel, h]

theorem natDigits_of_ge_ten (n : Nat) (h : 10 ≤ n) :
    natDigits n = natDigits (n / 10) ++ [48 + n % 10] := by
  have hn : ¬ n < 10 := by omega
  have e : natDigitsFuel (n + 1) n = natDigitsFuel n (n / 10) ++ [48 + n % 10] := by
    simp only [natDigitsFuel, hn, if_false]
  unfold natDigits
  rw [e, natDigitsFuel_fuel n (n / 10 + 1) (n / 10) (by omega) (by omega)]

theorem padStart2_natDigits (n : Nat) (h : n < 100) :
    padStart2 (natDigits n) = [48 + n / 10, 48 + n % 10] := by
  by_cases hn : n < 10
  · have h0 : n / 10 = 0 := by omega
    have h1 : n % 10 = n := by omega
    rw [natDigits_of_lt_ten n hn, h0, h1]
    rfl
  · have h0 : n / 10 < 10 := by omega
    rw [natDigits_of_ge_ten n (by omega), natDigits_of_lt_ten (n / 10) h0]
    rfl

theorem natDigits_four (n : Nat) (h1 : 1000 ≤ n) (h2 : n ≤ 9999) :
    natDigits n = [48 + n / 1000, 48 + n / 100 % 10, 48 + n / 10 % 10, 48 + n % 10] := by
  have e1 : n / 10 / 10 = n / 100 := by omega
  have e2 : n / 10 / 10 / 10 = n / 1000 := by omega
  rw [natDigits_of_ge_ten n (by omega), natDigits_of_ge_ten (n / 10) (by omega),
    natDigits_of_ge_ten (n / 10 / 10) (by omega),
    natDigits_of_lt_ten (n / 10 / 10 / 10) (by omega), e2, e1]
  rfl

theorem getTimestamp_eq (t : LocalClock) (hy : t.FourDigitYear) (hr : t.InRange) :
    getTimestamp t =
      [48 + t.fullYear.toNat / 1000, 48 + t.fullYear.toNat / 100 % 10,
        48 + t.fullYear.toNat / 10 % 10, 48 + t.fullYear.toNat % 10,
        48 + (t.month + 1) / 10, 48 + (t.month + 1) % 10,
        48 + t.date / 10, 48 + t.date % 10, 95,
        48 + t.hours / 10, 48 + t.hours % 10,
        48 + t.minutes / 10, 48 + t.minutes % 10] := by
  obtain ⟨hy1, hy2⟩ := hy
  obtain ⟨hm, _, hd, hh, hmi⟩ := hr
  have hneg : ¬ t.fullYear < 0 := by omega
  have hnat : t.fullYear.natAbs = t.fullYear.toNat := by omega
  have hu : js "_" = [95] := by decide
  simp only [getTimestamp, intToString, hneg, if_false, hnat,
    natDigits_four t.fullYear.toNat (by omega) (by omega),
    padStart2_natDigits (t.month + 1) (by omega), padStart2_natDigits t.date (by omega),
    padStart2_natDigits t.hours (by omega), padStart2_natDigits t.minutes (by omega), hu]
  rfl

theorem textLE_same (c : Nat) (s t : JSString) :
    textLE (c :: s) (c :: t) = textLE s t := by
  simp [textLE]

theorem textLE_two (n m : Nat) (s t : JSString) (hn : n < 100) (hm : m < 100) :
    textLE ((48 + n / 10) :: (48 + n % 10) :: s) ((48 + m / 10) :: (48 + m % 10) :: t) = true ↔
      n < m ∨ (n = m ∧ textLE s t = true) := by
  simp only [textLE, Bool.or_eq_true, Bool.and_eq_true, decide_eq_true_eq, beq_iff_eq]
  have en : n = 10 * (n / 10) + n % 10 := by omega
  have em : m = 10 * (m / 10) + m % 10 := by omega
  have rn : n % 10 < 10 := by omega
  have rm : m % 10 < 10 := by omega
  generalize n / 10 = qn at en ⊢
  generalize n % 10 = dn at en rn ⊢
  generalize m / 10 = qm at em ⊢
  generalize m % 10 = dm at em rm ⊢
  subst en em
  by_cases hst : textLE s t = true
  · simp only [hst, and_true]
    constructor <;> intro h <;> omega
  · simp only [hst, Bool.false_eq_true, and_false, or_false]
    constructor <;> intro h <;> omega

theorem textLE_four (n m : Nat) (s t : JSString) (hn1 : 1000 ≤ n) (hn2 : n ≤ 9999)
    (hm1 : 1000 ≤ m) (hm2 : m ≤ 9999) :
    textLE ((48 + n / 1000) :: (48 + n / 100 % 10) :: (48 + n / 10 % 10) :: (48 + n % 10) :: s)
        ((48 + m / 1000) :: (48 + m / 100 % 10) :: (48 + m / 10 % 10) :: (48 + m % 10) :: t) =
          true ↔
      n < m ∨ (n = m ∧ textLE s t = true) := by
  simp only [textLE, Bool.or_eq_true, Bool.and_eq_true, decide_eq_true_eq, beq_iff_eq]
  have en : n = 1000 * (n / 1000) + 100 * (n / 100 % 10) + 10 * (n / 10 % 10) + n % 10 := by
    omega
  have em : m = 1000 * (m / 1000) + 100 * (m / 100 % 10) + 10 * (m / 10 % 10) + m % 10 := by
    omega
  have n2 : n / 100 % 10 < 10 := by omega
  have n1 : n / 10 % 10 < 10 := by omega
  have n0 : n % 10 < 10 := by omega
  have m2 : m / 100 % 10 < 10 := by omega
  have m1 : m / 10 % 10 < 10 := by omega
  have m0 : m % 10 < 10 := by omega
  generalize n / 1000 = a3 at en ⊢
  generalize n / 100 % 10 = a2 at en n2 ⊢
  generalize n / 10 % 10 = a1 at en n1 ⊢
  generalize n % 10 = a0 at en n0 ⊢
  generalize m / 1000 = b3 at em ⊢
  generalize m / 100 % 10 = b2 at em m2 ⊢
  generalize m / 10 % 10 = b1 at em m1 ⊢
  generalize m % 10 = b0 at em m0 ⊢
  subst en em
  by_cases hst : textLE s t = true
  · simp only [hst, and_true]
    constructor <;> intro h <;> omega
  · simp only [hst, Bool.false_eq_true, and_false, or_false]
    constructor <;> intro h <;> omega

theorem textLE_getTimestamp_iff (a b : LocalClock) (ha : a.FourDigitYear)
    (hb : b.FourDigitYear) (hra : a.InRange) (hrb : b.InRange) :
    textLE (getTimestamp a) (getTimestamp b) = true ↔ a.notLaterThan b := by
  rw [getTimestamp_eq a ha hra, getTimestamp_eq b hb hrb]
  obtain ⟨ha1, ha2⟩ := ha
  obtain ⟨hb1, hb2⟩ := hb
  obtain ⟨ham, _, had, hah, hami⟩ := hra
  obtain ⟨hbm, _, hbd, hbh, hbmi⟩ := hrb
  rw [textLE_four _ _ _ _ (by omega) (by omega) (by omega) (by omega),
    textLE_two _ _ _ _ (by omega) (by omega), textLE_two _ _ _ _ (by omega) (by omega),
    textLE_same, textLE_two _ _ _ _ (by omega) (by omega),
    textLE_two _ _ _ _ (by omega) (by omega)]
  simp only [textLE, and_true]
  unfold LocalClock.notLaterThan
  constructor <;> intro h <;> omega

/-! ## Lemmas on `parseInt` and on ids -/

theorem digitValue_ten_digit (c : Nat) (h : isDigit c = true) :
    digitValue 10 c = some (c - 48) := by
  simp only [isDigit, Bool.and_eq_true, decide_eq_true_eq] at h
  have h1 : c - 48 < 10 := by omega
  simp [digitValue, h.1, h.2, Option.filter, h1]

theorem digitValue_ten_other (c : Nat) (h : isDigit c = false) : digitValue 10 c = none := by
  simp only [isDigit, Bool.and_eq_false_imp, decide_eq_true_eq, decide_eq_false_iff_not] at h
  unfold digitValue
  simp only
  split_ifs with h1 h2 h3
  · exact absurd h1.2 (h h1.1)
  · have : ¬ c - 87 < 10 := by omega
    simp [Option.filter, this]
  · have : ¬ c - 55 < 10 := by omega
    simp [Option.filter, this]
  · rfl

theorem radixDigits_ten (ds tail : JSString) (hd : ∀ c ∈ ds, isDigit c = true)
    (ht : ∀ c, tail.head? = some c → isDigit c = false) :
    radixDigits 10 (ds ++ tail) = ds.map (fun c => c - 48) := by
  induction ds with
  | nil =>
    cases tail with
    | nil => rfl
    | cons x r => simp [radixDigits, digitValue_ten_other x (ht x rfl)]
  | cons d ds ih =>
    simp [radixDigits, digitValue_ten_digit d (hd d (List.mem_cons_self d ds)),
      ih (fun c hc => hd c (List.mem_cons_of_mem d hc))]

theorem foldl_digit_values (ds : JSString) (a : Nat) :
    (ds.map (fun c => c - 48)).foldl (fun a d => a * 10 + d) a =
      ds.foldl (fun a c => 10 * a + (c - 48)) a := by
  induction ds generalizing a with
  | nil => rfl
  | cons d ds ih => simp [ih, Nat.mul_comm]

theorem dropWhile_append_of_all (p : Nat → Bool) (ws rest : List Nat)
    (hws : ∀ c ∈ ws, p c = true) (hrest : ∀ c, rest.head? = some c → p c = false) :
    (ws ++ rest).dropWhile p = rest := by
  induction ws with
  | nil =>
    cases rest with
    | nil => rfl
    | cons x r => simp [List.dropWhile_cons, hrest x rfl]
  | cons w ws ih =>
    simp [List.dropWhile_cons, hws w (List.mem_cons_self w ws),
      ih (fun c hc => hws c (List.mem_cons_of_mem w hc))]

theorem safe_lt_overflowThreshold : 2 ^ 53 < overflowThreshold := by
  unfold overflowThreshold
  norm_num

theorem parseInt_digits (ws ds tail : JSString) (hws : ∀ c ∈ ws, isWhiteSpace c = true)
    (hne : ds ≠ []) (hd : ∀ c ∈ ds, isDigit c = true)
    (ht : ∀ c, tail.head? = some c → isDigit c = false ∧ c ≠ 120 ∧ c ≠ 88)
    (hsafe : digitsValue ds ≤ 2 ^ 53) :
    parseInt (ws ++ ds ++ tail) = JSNumber.int (digitsValue ds) := by
  cases ds with
  | nil => exact absurd rfl hne
  | cons d ds =>
    have hdd : isDigit d = true := hd d (List.mem_cons_self d ds)
    have hdr : 48 ≤ d ∧ d ≤ 57 := by simpa [isDigit] using hdd
    have htrim : trimStart (ws ++ (d :: ds) ++ tail) = d :: (ds ++ tail) := by
      unfold trimStart
      rw [List.append_assoc]
      exact dropWhile_append_of_all isWhiteSpace ws _ hws
        (fun c hc => by
          simp only [List.cons_append, List.head?_cons, Option.some.injEq] at hc
          subst hc
          exact isWhiteSpace_digit _ hdr)
    have h45 : d ≠ 45 := by omega
    have h43 : d ≠ 43 := by omega
    have hx : ∀ x r, ds ++ tail = x :: r → x ≠ 120 ∧ x ≠ 88 := by
      intro x r hr
      cases ds with
      | nil =>
        rw [List.nil_append] at hr
        exact (ht x (by rw [hr]; rfl)).2
      | cons e ds =>
        rw [List.cons_append, List.cons.injEq] at hr
        have he : isDigit e = true := hd e (by simp)
        have her : 48 ≤ e ∧ e ≤ 57 := by simpa [isDigit] using he
        omega
    have hdigits : radixDigits 10 (d :: (ds ++ tail)) = (d :: ds).map (fun c => c - 48) := by
      rw [← List.cons_append]
      exact radixDigits_ten (d :: ds) tail hd (fun c hc => (ht c hc).1)
    have hover : ¬ overflowThreshold ≤ digitsValue (d :: ds) := by
      have := safe_lt_overflowThreshold
      omega
    have hval : List.foldl (fun a d => a * 10 + d) 0 ((d :: ds).map (fun c => c - 48)) =
        digitsValue (d :: ds) := foldl_digit_values (d :: ds) 0
    have hnil : ((d :: ds).map (fun c => c - 48)).isEmpty = false := rfl
    have hround : roundToDouble (digitsValue (d :: ds)) = digitsValue (d :: ds) := by
      unfold roundToDouble
      rw [if_pos hsafe]
    generalize hrest : ds ++ tail = rest at htrim hdigits hx
    unfold parseInt
    rw [htrim]
    cases rest with
    | nil =>
      simp only [h45, h43, if_false, hdigits, hnil, hval, hover, hround]
      by_cases h0 : digitsValue (d :: ds) = 0 <;> simp [h0]
    | cons x r =>
      have hxr := hx x r rfl
      simp only [h45, h43, hxr.1, hxr.2, or_self, and_false, if_false, hdigits, hnil, hval,
        hover, hround]
      by_cases h0 : digitsValue (d :: ds) = 0 <;> simp [h0]

theorem addAll_ids (calls : List Submission) (s : AppState) :
    (addAll s calls).data.map Record.id =
      (calls.map Submission.now).reverse ++ s.data.map Record.id := by
  induction calls generalizing s with
  | nil => simp [addAll]
  | cons f calls ih =>
    have h := ih (addData s f.nama f.nik f.alamat f.nominal f.now f.localeNow).1
    simp only [addAll, List.foldl_cons] at h ⊢
    rw [h, addData_data]
    simp [addData]

theorem mapWithIndexFrom_map {α β γ : Type} (f : β → Nat → γ) (g : α → β) (start : Nat)
    (xs : List α) :
    mapWithIndexFrom f start (xs.map g) = mapWithIndexFrom (fun x i => f (g x) i) start xs := by
  induction xs generalizing start with
  | nil => rfl
  | cons x xs ih => simp [mapWithIndexFrom, ih]

end DataManager

/-! ## Validation -/

/-- C1. `validateInput` accepts exactly when the trimmed name has at least 3 code units, the
national id is exactly 16 decimal digits and no record of the registry has an equal national
id; otherwise it reports the first failing check in the order name required, name too short,
invalid national id format, duplicate national id. -/
theorem validateInput_first_failing_check (data : List Record) (nama nik : JSString) :
    ((validateInput data nama nik).1 = true ↔
      3 ≤ (trim nama).length ∧ (nik.length = 16 ∧ ∀ c ∈ nik, 48 ≤ c ∧ c ≤ 57) ∧
        ∀ r ∈ data, r.nik ≠ nik) ∧
    validateInput data nama nik =
      if trim nama = [] then (false, some msgNameRequired)
      else if (trim nama).length < 3 then (false, some msgNameTooShort)
      else if ¬ (nik.length = 16 ∧ ∀ c ∈ nik, 48 ≤ c ∧ c ≤ 57) then (false, some msgNikFormat)
      else if ∃ r ∈ data, r.nik = nik then (false, some msgNikDuplicate)
      else (true, none) := by
  constructor
  · rw [validateInput_accepts_iff, matchDigits_iff]
  · by_cases h1 : trim nama = []
    · rw [if_pos h1]
      simp [validateInput, h1, truthy]
    · have ht : truthy (trim nama) = true := by
        cases h : trim nama with
        | nil => exact absurd h h1
        | cons a l => simp [truthy]
      rw [if_neg h1]
      by_cases h2 : (trim nama).length < 3
      · rw [if_pos h2]
        simp [validateInput, ht, h2]
      · rw [if_neg h2]
        by_cases h3 : matchDigits 16 nik = true
        · have h3' := (matchDigits_iff 16 nik).1 h3
          rw [if_neg (not_not_intro h3')]
          by_cases h4 : ∃ r ∈ data, r.nik = nik
          · have h4' : data.any (fun item => item.nik == nik) = true := by
              simpa [List.any_eq_true] using h4
            rw [if_pos h4]
            simp [validateInput, ht, h2, h3, h4']
          · have h4' : data.any (fun item => item.nik == nik) = false := by
              simpa [List.any_eq_true] using h4
            rw [if_neg h4]
            simp [validateInput, ht, h2, h3, h4']
        · have h3' : ¬ (nik.length = 16 ∧ ∀ c ∈ nik, 48 ≤ c ∧ c ≤ 57) :=
            fun h => h3 ((matchDigits_iff 16 nik).2 h)
          rw [if_pos h3']
          simp [validateInput, ht, h2, h3]

/-! ## The registry -/

/-- C2. Starting from the empty registry, after any sequence of submissions (an entry is
added only when `validateInput` accepts), deletions of one record and deletions of all
records, every stored national id is exactly 16 ASCII digits and no two records have the
same national id. -/
theorem registry_nik_digits_and_unique (events : List Event) :
    (∀ r ∈ (run AppState.empty events).data,
      r.nik.length = 16 ∧ ∀ c ∈ r.nik, 48 ≤ c ∧ c ≤ 57) ∧
    ((run AppState.empty events).data.map Record.nik).Nodup := by
  have h := nikInvariant_run events AppState.empty nikInvariant_nil
  exact ⟨fun r hr => (matchDigits_iff 16 r.nik).1 (h.1 r hr), h.2⟩

/-- C3. A submission that `validateInput` rejects leaves the state as it was: the registry
sequence and the stored item are unchanged, so the registry has the size it had, and the
only thing shown is the reason of the rejection. -/
theorem submit_rejected_changes_nothing (s : AppState) (f : Submission)
    (h : (validateInput s.data f.nama f.nik).1 = false) :
    (submit s f).1 = s ∧ (submit s f).1.data = s.data ∧ (submit s f).1.storage = s.storage ∧
      (submit s f).1.data.length = s.data.length ∧
      (submit s f).2 = (validateInput s.data f.nama f.nik).2 := by
  rw [submit_of_rejected s f h]
  exact ⟨rfl, rfl, rfl, rfl, rfl⟩

/-- Witness of C3: the form of Budi Santoso submitted a second time is rejected as a
duplicate and the registry keeps its one record. -/
theorem submit_rejected_changes_nothing_witness :
    (validateInput [budi 5] (budiForm 9).nama (budiForm 9).nik).1 = false ∧
    (submit ⟨[budi 5], some (stringify [budi 5])⟩ (budiForm 9)).1 =
      ⟨[budi 5], some (stringify [budi 5])⟩ ∧
    (submit ⟨[budi 5], some (stringify [budi 5])⟩ (budiForm 9)).2 = some msgNikDuplicate :=
  ⟨by decide,
    (submit_rejected_changes_nothing ⟨[budi 5], some (stringify [budi 5])⟩ (budiForm 9)
      (by decide)).1,
    by
      rw [(submit_rejected_changes_nothing ⟨[budi 5], some (stringify [budi 5])⟩ (budiForm 9)
        (by decide)).2.2.2.2]
      decide⟩

/-- C4. When `validateInput` accepts the name and national id, after `addData` the result of
`searchData("")` is the new record followed by the previous registry in its order, and the
new record holds the trimmed name, the submitted national id and the trimmed address. -/
theorem addData_then_search_all (toLowerCase : JSString → JSString) (s : AppState)
    (nama nik alamat nominal : JSString) (now : Int) (localeNow : JSString)
    (h : (validateInput s.data nama nik).1 = true) :
    searchData toLowerCase (addData s nama nik alamat nominal now localeNow).1.data (js "") =
        (addData s nama nik alamat nominal now localeNow).2 :: s.data ∧
      (addData s nama nik alamat nominal now localeNow).2.nama = trim nama ∧
      (addData s nama nik alamat nominal now localeNow).2.nik = nik ∧
      (addData s nama nik alamat nominal now localeNow).2.alamat = trim alamat := by
  obtain ⟨_, hd, _⟩ := (validateInput_accepts_iff s.data nama nik).1 h
  refine ⟨rfl, rfl, ?_, rfl⟩
  exact trim_of_matchDigits 16 nik hd

/-- Witness of C4: the form of Budi Santoso added to a registry holding Ali Baba. -/
theorem addData_then_search_all_witness :
    (validateInput [aliBaba] (js " Budi Santoso ") (js "3201012345678901")).1 = true ∧
    searchData toLowerCaseBasicLatin
        (addData ⟨[aliBaba], none⟩ (js " Budi Santoso ") (js "3201012345678901")
          (js "Jl. Merdeka No. 1 ") (js "5000000") 5 (js "5/1/2025, 09.07.00")).1.data (js "") =
      [budi 5, aliBaba] :=
  ⟨by decide,
    (addData_then_search_all toLowerCaseBasicLatin ⟨[aliBaba], none⟩ (js " Budi Santoso ")
      (js "3201012345678901") (js "Jl. Merdeka No. 1 ") (js "5000000") 5
      (js "5/1/2025, 09.07.00") (by decide)).1.trans (by decide)⟩

/-- C5. `searchData` returns the whole registry when the query is empty or made of white
space only; otherwise it returns, in registry order, exactly the records whose lower-cased
name contains the lower-cased query, or whose national id contains the query as typed, or
whose lower-cased address contains the lower-cased query. So the query `ali` finds a record
named `Ali Baba`, and a query equal to the national id of a record finds that record. -/
theorem searchData_filters_in_order (toLowerCase : JSString → JSString) (data : List Record)
    (query : JSString) :
    searchData toLowerCase data query =
        (if ∀ c ∈ query, isWhiteSpace c = true then data
        else data.filter (fun r => decide
          (toLowerCase query <:+: toLowerCase r.nama ∨ query <:+: r.nik ∨
            toLowerCase query <:+: toLowerCase r.alamat))) ∧
      searchData toLowerCaseBasicLatin [budi 5, aliBaba] (js "ali") = [aliBaba] ∧
      ∀ r ∈ data, r ∈ searchData toLowerCase data r.nik := by
  have key : ∀ q : JSString, searchData toLowerCase data q =
      (if ∀ c ∈ q, isWhiteSpace c = true then data
        else data.filter (fun r => decide
          (toLowerCase q <:+: toLowerCase r.nama ∨ q <:+: r.nik ∨
            toLowerCase q <:+: toLowerCase r.alamat))) := by
    intro q
    by_cases hq : ∀ c ∈ q, isWhiteSpace c = true
    · rw [if_pos hq]
      simp [searchData, (trim_eq_nil_iff q).2 hq, truthy]
    · rw [if_neg hq]
      have ht : truthy (trim q) = true := by
        cases h : trim q with
        | nil => exact absurd ((trim_eq_nil_iff q).1 h) hq
        | cons a l => simp [truthy]
      simp only [searchData, ht, Bool.not_true, Bool.false_eq_true, if_false]
      apply List.filter_congr
      intro r _
      rw [Bool.eq_iff_iff]
      simp [includes_iff, or_assoc]
  refine ⟨key query, by decide, ?_⟩
  intro r hr
  rw [key r.nik]
  by_cases hq : ∀ c ∈ r.nik, isWhiteSpace c = true
  · rw [if_pos hq]; exact hr
  · rw [if_neg hq]
    exact List.mem_filter.2 ⟨hr, by simp [List.infix_refl]⟩

/-- C6 as stated fails: two submissions accepted at the same clock reading give two records
with one id, and `deleteData` of that id removes both, where removing the first record with
that id would leave the other in place. -/
theorem deleteData_removes_both_of_equal_id :
    (run AppState.empty [Event.submit (budiForm 1736042820000),
      Event.submit (sitiForm 1736042820000)]).data.map Record.id =
        [1736042820000, 1736042820000] ∧
    (deleteData (run AppState.empty [Event.submit (budiForm 1736042820000),
      Event.submit (sitiForm 1736042820000)]) 1736042820000).data = [] ∧
    (run AppState.empty [Event.submit (budiForm 1736042820000),
      Event.submit (sitiForm 1736042820000)]).data.eraseP (fun r => r.id == 1736042820000) =
        [budi 1736042820000] ∧
    (deleteData (run AppState.empty [Event.submit (budiForm 1736042820000),
      Event.submit (sitiForm 1736042820000)]) 1736042820000).data ≠
      (run AppState.empty [Event.submit (budiForm 1736042820000),
        Event.submit (sitiForm 1736042820000)]).data.eraseP
          (fun r => r.id == 1736042820000) := by
  decide

/-- C6, amended. When at most one record has the given id (as when ids are pairwise
distinct), `deleteData` removes the first record whose id equals the given id and leaves
every other record in place and in order; if no record has that id, the sequence is
unchanged. -/
theorem deleteData_removes_the_match (s : AppState) (id : Int)
    (h : s.data.countP (fun r => r.id == id) ≤ 1) :
    (deleteData s id).data = s.data.eraseP (fun r => r.id == id) ∧
      ((∀ r ∈ s.data, r.id ≠ id) → (deleteData s id).data = s.data) := by
  refine ⟨filter_ne_eq_eraseP id s.data h, fun hn => ?_⟩
  show s.data.filter (fun item => item.id != id) = s.data
  rw [List.filter_eq_self]
  intro r hr
  simpa using hn r hr

/-- Witness of C6, amended: deleting Ali Baba from a registry of two records with distinct
ids leaves Budi Santoso. -/
theorem deleteData_removes_the_match_witness :
    [budi 5, aliBaba].countP (fun r => r.id == 1736042820000) ≤ 1 ∧
    (deleteData ⟨[budi 5, aliBaba], none⟩ 1736042820000).data = [budi 5] :=
  ⟨by decide,
    (deleteData_removes_the_match ⟨[budi 5, aliBaba], none⟩ 1736042820000 (by decide)).1.trans
      (by decide)⟩


/-! ## Persistence -/

/-- C7 as stated fails: on stored text cut off in the middle of a record `JSON.parse`
throws and `loadFromLocalStorage` throws with it, and on stored text that is JSON but not an
array the value read is returned as it is; in neither case is an empty sequence substituted. -/
theorem loadFromLocalStorage_corrupt_content :
    loadFromLocalStorage (some (js "[\x7b\"id\":5,\"nama\":\"Bu")) =
        Except.error JSError.syntaxError ∧
      loadFromLocalStorage (some (js "\x7b\x7d")) = Except.ok (JSValue.obj []) := by
  constructor <;> rfl

/-- C7, amended. `loadFromLocalStorage` returns the empty sequence when nothing is stored or
the stored text is empty; on any other stored text it returns what `JSON.parse` returns for
it and throws when `JSON.parse` throws; on text written by `saveToLocalStorage` it does not
throw. -/
theorem loadFromLocalStorage_absent_or_parsed (stored : Option JSString) :
    ((stored = none ∨ stored = some []) →
        loadFromLocalStorage stored = Except.ok (JSValue.arr [])) ∧
      (∀ text, stored = some text → text ≠ [] →
        loadFromLocalStorage stored = JSON.parse text) ∧
      (∀ s : AppState, stored = (saveToLocalStorage s).storage →
        loadFromLocalStorage stored = Except.ok (storedValue s.data)) := by
  refine ⟨?_, ?_, ?_⟩
  · rintro (h | h) <;> subst h <;> rfl
  · intro text h hne
    subst h
    cases text with
    | nil => exact absurd rfl hne
    | cons c t => rfl
  · intro s h
    subst h
    exact loadFromLocalStorage_stringify s.data

/-- C8 as stated fails: an entry whose amount field held `abc` has the amount `NaN`, which
is written as `null`; what is loaded back has `null` where the registry has `NaN`. Likewise
an entry whose amount field held `-0` has the amount negative zero, which is written as `0`
and loaded back as positive zero. -/
theorem roundtrip_loses_nan_amount :
    (run AppState.empty [Event.submit (sitiForm 5)]).data.map Record.nominal =
        [JSNumber.nan] ∧
      loadFromLocalStorage
          (saveToLocalStorage (run AppState.empty [Event.submit (sitiForm 5)])).storage =
        Except.ok (JSValue.arr [JSValue.obj
          [(js "id", JSValue.num (JSNumber.int 5)),
           (js "nama", JSValue.str (js "Siti Aminah")),
           (js "nik", JSValue.str (js "3201015555555555")),
           (js "alamat", JSValue.str (js "")),
           (js "nominal", JSValue.null),
           (js "tanggalInput", JSValue.str (js "5/1/2025, 09.07.00"))]]) ∧
      loadFromLocalStorage
          (saveToLocalStorage (run AppState.empty [Event.submit (sitiForm 5)])).storage ≠
        Except.ok (dataValue (run AppState.empty [Event.submit (sitiForm 5)]).data) ∧
      (run AppState.empty
        [Event.submit { sitiForm 5 with nominal := js "-0" }]).data.map Record.nominal =
        [JSNumber.negZero] ∧
      loadFromLocalStorage
          (saveToLocalStorage (run AppState.empty
            [Event.submit { sitiForm 5 with nominal := js "-0" }])).storage =
        Except.ok (JSValue.arr [JSValue.obj
          [(js "id", JSValue.num (JSNumber.int 5)),
           (js "nama", JSValue.str (js "Siti Aminah")),
           (js "nik", JSValue.str (js "3201015555555555")),
           (js "alamat", JSValue.str (js "")),
           (js "nominal", JSValue.num (JSNumber.int 0)),
           (js "tanggalInput", JSValue.str (js "5/1/2025, 09.07.00"))]]) ∧
      loadFromLocalStorage
          (saveToLocalStorage (run AppState.empty
            [Event.submit { sitiForm 5 with nominal := js "-0" }])).storage ≠
        Except.ok (dataValue (run AppState.empty
          [Event.submit { sitiForm 5 with nominal := js "-0" }]).data) := by
  have hd : (run AppState.empty [Event.submit (sitiForm 5)]).data =
      [⟨5, js "Siti Aminah", js "3201015555555555", js "", JSNumber.nan,
        js "5/1/2025, 09.07.00"⟩] := by decide
  have hl : loadFromLocalStorage
      (saveToLocalStorage (run AppState.empty [Event.submit (sitiForm 5)])).storage =
      Except.ok (storedValue (run AppState.empty [Event.submit (sitiForm 5)]).data) :=
    loadFromLocalStorage_stringify _
  have hd0 : (run AppState.empty
      [Event.submit { sitiForm 5 with nominal := js "-0" }]).data =
      [⟨5, js "Siti Aminah", js "3201015555555555", js "", JSNumber.negZero,
        js "5/1/2025, 09.07.00"⟩] := by decide
  have hl0 : loadFromLocalStorage
      (saveToLocalStorage (run AppState.empty
        [Event.submit { sitiForm 5 with nominal := js "-0" }])).storage =
      Except.ok (storedValue (run AppState.empty
        [Event.submit { sitiForm 5 with nominal := js "-0" }]).data) :=
    loadFromLocalStorage_stringify _
  refine ⟨by rw [hd]; rfl, by rw [hl, hd]; rfl, ?_, by rw [hd0]; rfl, by rw [hl0, hd0]; rfl,
    ?_⟩
  · rw [hl, hd]
    simp [storedValue, dataValue, Record.storedValue, Record.toValue, storedNumber]
  · rw [hl0, hd0]
    simp [storedValue, dataValue, Record.storedValue, Record.toValue, storedNumber]

/-- C8, amended. For every registry in which every amount is a finite number other than
negative zero (no amount came from an input without leading digits, from digits beyond the
range of a double, or from a minus sign before digits denoting zero), in particular for
every such registry reached through `addData`, `deleteData` and `deleteAll`,
`saveToLocalStorage` followed by `loadFromLocalStorage` yields the identical ordered sequence
of records, field for field; and only for such registries. -/
theorem save_then_load_finite_amounts (s : AppState)
    (h : ∀ r ∈ s.data, ∃ z, r.nominal = JSNumber.int z) :
    loadFromLocalStorage (saveToLocalStorage s).storage = Except.ok (dataValue s.data) ∧
      ∀ t : AppState,
        loadFromLocalStorage (saveToLocalStorage t).storage = Except.ok (dataValue t.data) →
        ∀ r ∈ t.data, ∃ z, r.nominal = JSNumber.int z := by
  constructor
  · rw [← storedValue_eq_dataValue s.data h]
    exact loadFromLocalStorage_stringify s.data
  · intro t ht r hr
    have hl : loadFromLocalStorage (saveToLocalStorage t).storage =
        Except.ok (storedValue t.data) := loadFromLocalStorage_stringify t.data
    rw [hl] at ht
    exact amounts_of_storedValue_eq t.data (Except.ok.inj ht) r hr

/-- Witness of C8, amended: the registry reached by submitting the form of Budi Santoso. -/
theorem save_then_load_finite_amounts_witness :
    (∀ r ∈ (run AppState.empty [Event.submit (budiForm 5)]).data,
        ∃ z, r.nominal = JSNumber.int z) ∧
      loadFromLocalStorage
          (saveToLocalStorage (run AppState.empty [Event.submit (budiForm 5)])).storage =
        Except.ok (dataValue [budi 5]) :=
  have hd : (run AppState.empty [Event.submit (budiForm 5)]).data = [budi 5] := by decide
  have hz : ∀ r ∈ (run AppState.empty [Event.submit (budiForm 5)]).data,
      ∃ z, r.nominal = JSNumber.int z := by
    rw [hd]
    intro r hr
    rw [List.mem_singleton] at hr
    exact ⟨5000000, by rw [hr]; rfl⟩
  ⟨hz, (save_then_load_finite_amounts _ hz).1.trans (by rw [hd])⟩

/-! ## Reports and exports -/

/-- C9 as stated fails: for the record of Budi Santoso the amount column of the spreadsheet
row carries the number 5000000 and the amount column of the table row of `generatePDFHTML`
carries the text of the formatted currency, so the rows differ in more than the escaping of
name and address. -/
theorem spreadsheet_amount_is_not_the_markup_amount :
    (dataWithNo [budi 5]).map ExcelRow.amountValue = [JSValue.num (JSNumber.int 5000000)] ∧
      (pdfRows rupiah [budi 5]).map RowCells.amountValue =
        [JSValue.str (js "Rp\u00a05.000.000")] ∧
      (dataWithNo [budi 5]).map ExcelRow.amountValue ≠
        (pdfRows rupiah [budi 5]).map RowCells.amountValue := by
  have h1 : (dataWithNo [budi 5]).map ExcelRow.amountValue =
      [JSValue.num (JSNumber.int 5000000)] := rfl
  have h2 : (pdfRows rupiah [budi 5]).map RowCells.amountValue =
      [JSValue.str (js "Rp\u00a05.000.000")] := by
    have e : rupiah (JSNumber.int 5000000) = js "Rp\u00a05.000.000" := by decide
    simp [pdfRows, mapWithIndex, mapWithIndexFrom, pdfRowCells, RowCells.amountValue,
      formatCurrency, budi, e]
  refine ⟨h1, h2, ?_⟩
  rw [h1, h2]
  simp

/-- C9, amended. For every record sequence the spreadsheet rows of `exportToExcel`, the table
rows of `generatePDFHTML` and the table rows of `generateWordTable` are as many as the
records, and that number is the total stated in both documents: each document is its
template with the decimal digits of the number of its rows after the label `Total Data: `,
and no other total fits. Row `i` carries in all three the national id and creation timestamp
of record `i`; the spreadsheet row carries its name and address as they are and its amount
as a number, and the two table rows carry the escaped name, the escaped address and the
formatted currency text of the same amount, and are equal to each other. -/
theorem export_rows_agree (numberFormat : JSNumber → JSString) (localeNow : JSString)
    (data : List Record) :
    (dataWithNo data).length = data.length ∧
      (pdfRows numberFormat data).length = data.length ∧
      (wordRows numberFormat data).length = data.length ∧
      generatePDFHTML numberFormat localeNow data =
        pdfTemplate localeNow (natDigits (pdfRows numberFormat data).length)
          ((pdfRows numberFormat data).map pdfRowMarkup).flatten ∧
      wordDocument numberFormat localeNow data =
        wordTemplate localeNow (natDigits (wordRows numberFormat data).length)
          (generateWordTable numberFormat data) ∧
      (∀ total : JSString,
        generatePDFHTML numberFormat localeNow data =
          pdfTemplate localeNow total ((pdfRows numberFormat data).map pdfRowMarkup).flatten →
        total = natDigits data.length ∧ digitsValue total = data.length) ∧
      (∀ total : JSString,
        wordDocument numberFormat localeNow data =
          wordTemplate localeNow total (generateWordTable numberFormat data) →
        total = natDigits data.length ∧ digitsValue total = data.length) ∧
      js "Total Data: " ++ natDigits data.length <:+:
        generatePDFHTML numberFormat localeNow data ∧
      js "Total Data: " ++ natDigits data.length <:+:
        wordDocument numberFormat localeNow data ∧
      ∀ (i : Nat) (r : Record), data[i]? = some r →
        (dataWithNo data)[i]? =
            some (ExcelRow.mk (i + 1) r.nama r.nik r.alamat r.nominal r.tanggalInput) ∧
          (pdfRows numberFormat data)[i]? =
            some (RowCells.mk (natDigits (i + 1)) (escapeHtml r.nama) r.nik
              (escapeHtml r.alamat) (formatCurrency numberFormat r.nominal) r.tanggalInput) ∧
          (wordRows numberFormat data)[i]? = (pdfRows numberFormat data)[i]? := by
  have hp : (pdfRows numberFormat data).length = data.length := mapWithIndex_length _ _
  have hw : (wordRows numberFormat data).length = data.length := mapWithIndex_length _ _
  have hv : digitsValue (natDigits data.length) = data.length :=
    (natDigitsFuel_spec (data.length + 1) data.length (by omega)).1
  refine ⟨mapWithIndex_length _ _, hp, hw, ?_, ?_, ?_, ?_, ?_, ?_, ?_⟩
  · rw [hp]; rfl
  · rw [hw]; rfl
  · intro total h
    have ht : total = natDigits data.length := by
      simp only [generatePDFHTML, pdfTemplate, List.append_left_inj,
        List.append_right_inj] at h
      exact h.symm
    exact ⟨ht, by rw [ht]; exact hv⟩
  · intro total h
    have ht : total = natDigits data.length := by
      simp only [wordDocument, wordTemplate, List.append_left_inj,
        List.append_right_inj] at h
      exact h.symm
    exact ⟨ht, by rw [ht]; exact hv⟩
  · unfold generatePDFHTML pdfTemplate
    rw [js_append "<br>\n" "                    Total Data: ",
      show js "                    Total Data: " = js "                    " ++ js "Total Data: "
        from by decide]
    simp only [List.append_assoc]
    refine infix_append_left _ _ _ (infix_append_left _ _ _ (infix_append_left _ _ _
      (infix_append_left _ _ _ ?_)))
    rw [← List.append_assoc]
    exact (List.prefix_append _ _).isInfix
  · unfold wordDocument wordTemplate
    rw [js_append "</p>\n"
        "                <p style=\"text-align: center; color: #666;\">Total Data: ",
      show js "                <p style=\"text-align: center; color: #666;\">Total Data: " =
        js "                <p style=\"text-align: center; color: #666;\">" ++ js "Total Data: "
        from by decide]
    simp only [List.append_assoc]
    refine infix_append_left _ _ _ (infix_append_left _ _ _ (infix_append_left _ _ _
      (infix_append_left _ _ _ ?_)))
    rw [← List.append_assoc]
    exact (List.prefix_append _ _).isInfix
  · intro i r hr
    simp [dataWithNo, pdfRows, wordRows, mapWithIndex_getElem?, hr, pdfRowCells, wordRowCells]

/-- C10. With no record in the registry each of `exportToExcel`, `exportToPDF` and
`exportToWord` shows the notification that there is nothing to download and does nothing
else: no representation is built, no sink is called and no success is shown. -/
theorem export_of_empty_registry (numberFormat : JSNumber → JSString) (localeNow : JSString)
    (stamp : LocalClock) :
    exportToExcel [] stamp = [Effect.showNotification msgNothingToExport] ∧
      exportToPDF numberFormat [] localeNow stamp =
        [Effect.showNotification msgNothingToExport] ∧
      exportToWord numberFormat [] localeNow stamp =
        [Effect.showNotification msgNothingToExport] :=
  ⟨rfl, rfl, rfl⟩

/-! ## Markup escaping -/

/-- C11. `escapeHtml` replaces each occurrence of `&`, `<`, `>`, `"` and the apostrophe by
its entity (`&amp;`, `&lt;`, `&gt;`, `&quot;`, `&#039;`) and leaves every other code unit
unchanged and in order: it maps the empty text to the empty text, a concatenation to the
concatenation of the images, each of the five characters to its entity and any other code
unit to itself. -/
theorem escapeHtml_replaces_the_five (text : JSString) :
    escapeHtml [] = [] ∧
      (∀ a b : JSString, escapeHtml (a ++ b) = escapeHtml a ++ escapeHtml b) ∧
      escapeHtml (js "&") = js "&amp;" ∧ escapeHtml (js "<") = js "&lt;" ∧
      escapeHtml (js ">") = js "&gt;" ∧ escapeHtml (js "\"") = js "&quot;" ∧
      escapeHtml (js "\x27") = js "&#039;" ∧
      (∀ c : Nat, c ≠ 38 → c ≠ 60 → c ≠ 62 → c ≠ 34 → c ≠ 39 → escapeHtml [c] = [c]) ∧
      escapeHtml text = text.flatMap (fun c => escapeHtml [c]) ∧
      ((∀ c ∈ text, c ≠ 38 ∧ c ≠ 60 ∧ c ≠ 62 ∧ c ≠ 34 ∧ c ≠ 39) → escapeHtml text = text) := by
  refine ⟨rfl, escapeHtml_append, by decide, by decide, by decide, by decide, by decide,
    ?_, ?_, ?_⟩
  · intro c h1 h2 h3 h4 h5
    rw [escapeHtml_single]
    simp [h1, h2, h3, h4, h5]
  · induction text with
    | nil => rfl
    | cons a text ih => rw [escapeHtml_cons, ih, List.flatMap_cons]
  · intro h
    induction text with
    | nil => rfl
    | cons a text ih =>
      have ha := h a (List.mem_cons_self a text)
      rw [escapeHtml_cons, ih (fun c hc => h c (List.mem_cons_of_mem a hc)), escapeHtml_single]
      simp [ha.1, ha.2.1, ha.2.2.1, ha.2.2.2.1, ha.2.2.2.2]

/-- C19. The output of `escapeHtml` contains none of `<`, `>`, `"` and the apostrophe, and
wherever it contains `&` one of the five entities starts there; so the name and address
cells of the rows of `generatePDFHTML` and `generateWordTable` contain none of the four
characters that open or close a tag or an attribute. -/
theorem escapeHtml_output_is_inert (text : JSString) (numberFormat : JSNumber → JSString)
    (data : List Record) :
    (∀ c ∈ escapeHtml text, c ≠ 60 ∧ c ≠ 62 ∧ c ≠ 34 ∧ c ≠ 39) ∧
      (∀ pre post : JSString, escapeHtml text = pre ++ 38 :: post →
        ∃ e ∈ entities, e <+: 38 :: post) ∧
      (∀ row ∈ pdfRows numberFormat data ++ wordRows numberFormat data,
        ∀ c ∈ row.nama ++ row.alamat, c ≠ 60 ∧ c ≠ 62 ∧ c ≠ 34 ∧ c ≠ 39) := by
  refine ⟨escapeHtml_no_markup text, fun pre post h => escapeHtml_ampersand text pre post h, ?_⟩
  intro row hrow c hc
  have hcell : ∃ r : Record, row.nama = escapeHtml r.nama ∧ row.alamat = escapeHtml r.alamat := by
    rcases List.mem_append.1 hrow with h | h
    · obtain ⟨i, hi⟩ := List.getElem?_of_mem h
      simp only [pdfRows, mapWithIndex_getElem?, Option.map_eq_some'] at hi
      obtain ⟨r, _, hr⟩ := hi
      exact ⟨r, by rw [← hr]; rfl, by rw [← hr]; rfl⟩
    · obtain ⟨i, hi⟩ := List.getElem?_of_mem h
      simp only [wordRows, mapWithIndex_getElem?, Option.map_eq_some'] at hi
      obtain ⟨r, _, hr⟩ := hi
      exact ⟨r, by rw [← hr]; rfl, by rw [← hr]; rfl⟩
  obtain ⟨r, hn, ha⟩ := hcell
  rw [hn, ha] at hc
  rcases List.mem_append.1 hc with h | h
  · exact escapeHtml_no_markup _ c h
  · exact escapeHtml_no_markup _ c h

/-! ## Deletion and stored names -/

/-- C14 as stated fails: `deleteAll` asks for confirmation first, and when the dialog is
declined the registry and the stored item stay as they were. -/
theorem deleteAll_declined_keeps_registry :
    (deleteAll ⟨[budi 5], some (stringify [budi 5])⟩ false).1.data = [budi 5] ∧
      (deleteAll ⟨[budi 5], some (stringify [budi 5])⟩ false).1.storage =
        some (stringify [budi 5]) ∧
      (deleteAll ⟨[budi 5], some (stringify [budi 5])⟩ false).1.data ≠ [] := by
  decide

/-- C14, amended. For every registry state, after a `deleteAll` whose confirmation dialog is
accepted the registry is the empty sequence, the stored item is the text `[]`, which loads
as the empty sequence, and `searchData("")` returns the empty sequence; when the dialog is
declined the state is unchanged. -/
theorem deleteAll_confirmed_empties (toLowerCase : JSString → JSString) (s : AppState) :
    (deleteAll s true).1.data = [] ∧
      (deleteAll s true).1.storage = some (js "[]") ∧
      loadFromLocalStorage (deleteAll s true).1.storage = Except.ok (JSValue.arr []) ∧
      searchData toLowerCase (deleteAll s true).1.data (js "") = [] ∧
      (deleteAll s true).2 = some msgDeletedAll ∧
      deleteAll s false = (s, none) :=
  ⟨rfl, rfl, rfl, rfl, rfl, rfl⟩

/-- C17. Starting from the empty registry, after any sequence of submissions (an entry is
added only when `validateInput` accepts) and deletions, every stored name is non-empty, has
at least 3 code units and has no white space at its start or end, and every stored address
has no white space at its start or end. -/
theorem registry_names_trimmed (events : List Event) :
    (∀ r ∈ (run AppState.empty events).data,
      r.nama ≠ [] ∧ 3 ≤ r.nama.length ∧
      (∀ c, r.nama.head? = some c → isWhiteSpace c = false) ∧
      (∀ c, r.nama.getLast? = some c → isWhiteSpace c = false)) ∧
    (∀ r ∈ (run AppState.empty events).data,
      (∀ c, r.alamat.head? = some c → isWhiteSpace c = false) ∧
      (∀ c, r.alamat.getLast? = some c → isWhiteSpace c = false)) := by
  have hinv := nameInvariant_run events AppState.empty nameInvariant_nil
  constructor
  · intro r hr
    obtain ⟨hlen, hn, _⟩ := hinv r hr
    refine ⟨?_, hlen, hn.1, hn.2⟩
    intro h
    rw [h] at hlen
    simp at hlen
  · intro r hr
    obtain ⟨_, _, ha⟩ := hinv r hr
    exact ⟨ha.1, ha.2⟩

/-- C20. After `deleteData(id)` no record of the registry has that id, every record with a
different id remains, in its original relative order (what is left is the subsequence of the
records with a different id), and the registry is not longer than before. -/
theorem deleteData_keeps_the_others (s : AppState) (id : Int) :
    (∀ r ∈ (deleteData s id).data, r.id ≠ id) ∧
      (∀ r ∈ s.data, r.id ≠ id → r ∈ (deleteData s id).data) ∧
      (deleteData s id).data = s.data.filter (fun r => decide (r.id ≠ id)) ∧
      (deleteData s id).data.Sublist s.data ∧
      (deleteData s id).data.length ≤ s.data.length := by
  have hd : (deleteData s id).data = s.data.filter (fun item => item.id != id) := rfl
  refine ⟨?_, ?_, ?_, ?_, ?_⟩
  · intro r hr
    rw [hd] at hr
    simpa using (List.mem_filter.1 hr).2
  · intro r hr hne
    rw [hd]
    exact List.mem_filter.2 ⟨hr, by simpa using hne⟩
  · rw [hd]
    apply List.filter_congr
    intro r _
    by_cases h : r.id = id <;> simp [h]
  · rw [hd]; exact List.filter_sublist s.data
  · rw [hd]; exact List.length_filter_le _ _

/-! ## Amounts and ids -/

/-- C12 as stated fails: `addData` stores `parseInt` of the raw amount, which is negative
for `-5` and `NaN` for `abc`. -/
theorem addData_amount_negative_or_nan :
    (addData AppState.empty (js "Budi Santoso") (js "3201012345678901") (js "") (js "-5") 5
        (js "5/1/2025, 09.07.00")).2.nominal = JSNumber.int (-5) ∧
      (addData AppState.empty (js "Budi Santoso") (js "3201012345678901") (js "") (js "abc") 5
        (js "5/1/2025, 09.07.00")).2.nominal = JSNumber.nan := by
  decide

/-- C12, amended. For every raw amount made of optional leading white space, then one or
more decimal digits denoting at most `2^53`, then nothing or a remainder that starts with a
character other than a digit, `x` or `X` (a decimal point and a decimal component, say), the
amount stored in the created record is the non-negative integer denoted by the digits: what
follows them is discarded. -/
theorem addData_amount_of_leading_digits (s : AppState) (nama nik alamat : JSString)
    (now : Int) (localeNow : JSString) (ws ds tail : JSString)
    (hws : ∀ c ∈ ws, isWhiteSpace c = true) (hne : ds ≠ [])
    (hd : ∀ c ∈ ds, isDigit c = true)
    (ht : ∀ c, tail.head? = some c → isDigit c = false ∧ c ≠ 120 ∧ c ≠ 88)
    (hsafe : digitsValue ds ≤ 2 ^ 53) :
    (addData s nama nik alamat (ws ++ ds ++ tail) now localeNow).2.nominal =
        JSNumber.int ((digitsValue ds : Nat) : Int) ∧
      (0 : Int) ≤ ((digitsValue ds : Nat) : Int) :=
  ⟨parseInt_digits ws ds tail hws hne hd ht hsafe, Int.ofNat_nonneg _⟩

/-- Witness of C12, amended: the raw amount ` 12.75` is stored as 12. -/
theorem addData_amount_of_leading_digits_witness :
    (addData AppState.empty (js "Budi Santoso") (js "3201012345678901") (js "")
        (js " " ++ js "12" ++ js ".75") 5 (js "5/1/2025, 09.07.00")).2.nominal =
      JSNumber.int 12 :=
  (addData_amount_of_leading_digits AppState.empty (js "Budi Santoso")
    (js "3201012345678901") (js "") 5 (js "5/1/2025, 09.07.00") (js " ") (js "12") (js ".75")
    (by decide) (by decide) (by decide)
    (fun c hc => by
      have e : (js ".75").head? = some 46 := by decide
      rw [e] at hc
      cases hc
      decide)
    (by decide)).1

/-- C13 as stated fails: `Date.now()` has the resolution of a millisecond, and two calls of
`addData` at the same reading give two records with the same id. -/
theorem addData_twice_at_one_reading :
    (addAll AppState.empty [budiForm 1736042820000, sitiForm 1736042820000]).data.map
        Record.id = [1736042820000, 1736042820000] ∧
      ¬ ((addAll AppState.empty [budiForm 1736042820000, sitiForm 1736042820000]).data.map
        Record.id).Nodup := by
  decide

/-- C13, amended. For every sequence of `addData` calls starting from the empty registry
whose clock readings are strictly increasing, the ids of the records in the registry are
pairwise distinct, they decrease from the newest record to the oldest, and a record added
next at a reading later than all of these has an id greater than that of every record
already present. -/
theorem ids_distinct_of_increasing_readings (calls : List Submission)
    (h : (calls.map Submission.now).Pairwise (fun a b => a < b)) :
    ((addAll AppState.empty calls).data.map Record.id).Nodup ∧
      ((addAll AppState.empty calls).data.map Record.id).Pairwise (fun a b => a > b) ∧
      ∀ f : Submission, (∀ t ∈ calls.map Submission.now, t < f.now) →
        ∀ r ∈ (addAll AppState.empty calls).data,
          r.id < (addData (addAll AppState.empty calls) f.nama f.nik f.alamat f.nominal f.now
            f.localeNow).2.id := by
  have hids : (addAll AppState.empty calls).data.map Record.id =
      (calls.map Submission.now).reverse := by
    rw [addAll_ids]
    simp [AppState.empty]
  have hdec : ((calls.map Submission.now).reverse).Pairwise (fun a b => a > b) :=
    List.pairwise_reverse.2 h
  refine ⟨?_, ?_, ?_⟩
  · rw [hids]
    exact hdec.imp (fun hab => ne_of_gt hab)
  · rw [hids]
    exact hdec
  · intro f hf r hr
    have hmem : r.id ∈ (addAll AppState.empty calls).data.map Record.id :=
      List.mem_map_of_mem Record.id hr
    rw [hids, List.mem_reverse] at hmem
    exact hf r.id hmem

/-- Witness of C13, amended: two entries added one millisecond apart. -/
theorem ids_distinct_of_increasing_readings_witness :
    ([budiForm 1736042820000, sitiForm 1736042820001].map Submission.now).Pairwise
        (fun a b => a < b) ∧
      ((addAll AppState.empty [budiForm 1736042820000, sitiForm 1736042820001]).data.map
        Record.id).Nodup :=
  ⟨by decide,
    (ids_distinct_of_increasing_readings [budiForm 1736042820000, sitiForm 1736042820001]
      (by decide)).1⟩

/-! ## The timestamp of export files -/

/-- C15 as stated fails: the year is written without padding or truncation, so at a clock
whose year has five digits the token has 14 code units, and with a three-digit year 12. -/
theorem getTimestamp_year_not_four_digits :
    getTimestamp ⟨10000, 0, 5, 9, 7⟩ = js "100000105_0907" ∧
      (getTimestamp ⟨10000, 0, 5, 9, 7⟩).length = 14 ∧
      (getTimestamp ⟨999, 0, 5, 9, 7⟩).length = 12 := by
  decide

/-- C15, amended. For every current date-time whose year is between 1000 and 9999,
`getTimestamp` returns a token of the form `YYYYMMDD_HHMM`: the 4 digits of the year, the 2
digits of the month (01 to 12), the 2 digits of the day, an underscore, the 2 digits of the
hour and the 2 digits of the minute, 13 code units in all; and each export of a registry
that is not empty names its file `Data_Penduduk_`, that token, and `.xlsx`, `.pdf` or
`.doc`. -/
theorem getTimestamp_form_and_file_names (t : LocalClock) (numberFormat : JSNumber → JSString)
    (localeNow : JSString) (data : List Record) (hy : t.FourDigitYear) (hr : t.InRange)
    (hdata : data ≠ []) :
    getTimestamp t =
        [48 + t.fullYear.toNat / 1000, 48 + t.fullYear.toNat / 100 % 10,
          48 + t.fullYear.toNat / 10 % 10, 48 + t.fullYear.toNat % 10,
          48 + (t.month + 1) / 10, 48 + (t.month + 1) % 10,
          48 + t.date / 10, 48 + t.date % 10, 95,
          48 + t.hours / 10, 48 + t.hours % 10,
          48 + t.minutes / 10, 48 + t.minutes % 10] ∧
      (getTimestamp t).length = 13 ∧
      (∀ c ∈ (getTimestamp t).take 8 ++ (getTimestamp t).drop 9, isDigit c = true) ∧
      (1 ≤ t.month + 1 ∧ t.month + 1 ≤ 12) ∧
      exportToExcel data t =
        [Effect.xlsxWriteFile (dataWithNo data) (js "Data Penduduk") [5, 25, 18, 30, 15, 20]
            (js "Data_Penduduk_" ++ getTimestamp t ++ js ".xlsx"),
          Effect.showNotification msgExcelDone] ∧
      exportToPDF numberFormat data localeNow t =
        [Effect.html2pdfSave (generatePDFHTML numberFormat localeNow data)
            (js "Data_Penduduk_" ++ getTimestamp t ++ js ".pdf"),
          Effect.showNotificationWhenSaved msgPDFDone] ∧
      exportToWord numberFormat data localeNow t =
        [Effect.linkDownload (wordDocument numberFormat localeNow data)
            (js "application/vnd.ms-word")
            (js "Data_Penduduk_" ++ getTimestamp t ++ js ".doc"),
          Effect.showNotification msgWordDone] := by
  have hlen : data.length ≠ 0 := by
    cases data with
    | nil => exact absurd rfl hdata
    | cons r rs => simp
  have hform := getTimestamp_eq t hy hr
  obtain ⟨hy1, hy2⟩ := hy
  obtain ⟨hm, _, hd, hh, hmi⟩ := hr
  refine ⟨hform, by rw [hform]; rfl, ?_, ⟨by omega, by omega⟩, ?_, ?_, ?_⟩
  · rw [hform]
    intro c hc
    simp only [List.take, List.drop, List.cons_append, List.nil_append, List.mem_cons,
      List.mem_singleton, List.not_mem_nil, or_false] at hc
    simp only [isDigit, Bool.and_eq_true, decide_eq_true_eq]
    omega
  · simp [exportToExcel, hlen]
  · simp [exportToPDF, hlen]
  · simp [exportToWord, hlen]

/-- Witness of C15, amended: the clock of 5 January 2025, 09:07, and a registry of one
record. -/
theorem getTimestamp_form_and_file_names_witness :
    getTimestamp ⟨2025, 0, 5, 9, 7⟩ = js "20250105_0907" ∧
      exportToExcel [budi 5] ⟨2025, 0, 5, 9, 7⟩ =
        [Effect.xlsxWriteFile (dataWithNo [budi 5]) (js "Data Penduduk")
            [5, 25, 18, 30, 15, 20]
            (js "Data_Penduduk_" ++ getTimestamp ⟨2025, 0, 5, 9, 7⟩ ++ js ".xlsx"),
          Effect.showNotification msgExcelDone] :=
  ⟨(getTimestamp_form_and_file_names ⟨2025, 0, 5, 9, 7⟩ rupiah (js "5/1/2025, 09.07.00")
      [budi 5] (by decide) (by decide) (by decide)).1.trans (by decide),
    (getTimestamp_form_and_file_names ⟨2025, 0, 5, 9, 7⟩ rupiah (js "5/1/2025, 09.07.00")
      [budi 5] (by decide) (by decide) (by decide)).2.2.2.2.1⟩

/-- C18. For any two date-times with years between 1000 and 9999, if the first is not later
than the second when compared by year, month, day, hour and minute, then the token of the
first is less than or equal to the token of the second in the order of text, code unit by
code unit; and conversely. -/
theorem getTimestamp_sortable (a b : LocalClock) (ha : a.FourDigitYear)
    (hb : b.FourDigitYear) (hra : a.InRange) (hrb : b.InRange) (h : a.notLaterThan b) :
    textLE (getTimestamp a) (getTimestamp b) = true ∧
      (textLE (getTimestamp b) (getTimestamp a) = true → b.notLaterThan a) :=
  ⟨(textLE_getTimestamp_iff a b ha hb hra hrb).2 h,
    (textLE_getTimestamp_iff b a hb ha hrb hra).1⟩

/-- Witness of C18: 31 December 2024, 23:59, and 5 January 2025, 09:07. -/
theorem getTimestamp_sortable_witness :
    LocalClock.notLaterThan ⟨2024, 11, 31, 23, 59⟩ ⟨2025, 0, 5, 9, 7⟩ ∧
      getTimestamp ⟨2024, 11, 31, 23, 59⟩ = js "20241231_2359" ∧
      getTimestamp ⟨2025, 0, 5, 9, 7⟩ = js "20250105_0907" ∧
      textLE (getTimestamp ⟨2024, 11, 31, 23, 59⟩) (getTimestamp ⟨2025, 0, 5, 9, 7⟩) = true :=
  ⟨by decide, by decide, by decide,
    (getTimestamp_sortable ⟨2024, 11, 31, 23, 59⟩ ⟨2025, 0, 5, 9, 7⟩ (by decide) (by decide)
      (by decide) (by decide) (by decide)).1⟩

/-! ## Rows of the reports -/

/-- C16 as stated fails: the amount column of a spreadsheet row carries the amount as a
number, not the formatted currency text. -/
theorem spreadsheet_amount_is_raw_number :
    (dataWithNo [aliBaba]).map ExcelRow.amountValue = [JSValue.num (JSNumber.int 250000)] ∧
      (dataWithNo [aliBaba]).map ExcelRow.amountValue ≠
        [JSValue.str (formatCurrency rupiah aliBaba.nominal)] := by
  have h1 : (dataWithNo [aliBaba]).map ExcelRow.amountValue =
      [JSValue.num (JSNumber.int 250000)] := rfl
  refine ⟨h1, ?_⟩
  rw [h1]
  simp

/-- C16, amended. For every record sequence each export representation has exactly one row
per record in registry order, and the row at 0-based position `i` carries the sequence
number `i + 1`, derived from the position and never from the stored id (replacing the ids
changes no row); the amount column of the two markup representations carries the formatted
currency text of the amount of the record, that of the spreadsheet representation carries
the amount itself. -/
theorem export_rows_numbered_by_position (numberFormat : JSNumber → JSString)
    (data : List Record) (newId : Record → Int) :
    (dataWithNo data).length = data.length ∧
      (pdfRows numberFormat data).length = data.length ∧
      (wordRows numberFormat data).length = data.length ∧
      (∀ (i : Nat) (r : Record), data[i]? = some r →
        ((dataWithNo data)[i]?).map (fun row => (row.No, row.NIK, row.Nominal)) =
            some (i + 1, r.nik, r.nominal) ∧
          ((pdfRows numberFormat data)[i]?).map (fun row => (row.no, row.nik, row.nominal)) =
            some (natDigits (i + 1), r.nik, formatCurrency numberFormat r.nominal) ∧
          ((wordRows numberFormat data)[i]?).map (fun row => (row.no, row.nik, row.nominal)) =
            some (natDigits (i + 1), r.nik, formatCurrency numberFormat r.nominal)) ∧
      dataWithNo (data.map (fun r => { r with id := newId r })) = dataWithNo data ∧
      pdfRows numberFormat (data.map (fun r => { r with id := newId r })) =
        pdfRows numberFormat data ∧
      wordRows numberFormat (data.map (fun r => { r with id := newId r })) =
        wordRows numberFormat data := by
  refine ⟨mapWithIndex_length _ _, mapWithIndex_length _ _, mapWithIndex_length _ _,
    ?_, ?_, ?_, ?_⟩
  · intro i r hr
    simp [dataWithNo, pdfRows, wordRows, mapWithIndex_getElem?, hr, pdfRowCells, wordRowCells]
  · simp only [dataWithNo, mapWithIndex, mapWithIndexFrom_map]
  · simp only [pdfRows, mapWithIndex, mapWithIndexFrom_map]
    rfl
  · simp only [wordRows, mapWithIndex, mapWithIndexFrom_map]
    rfl
